import Mathlib

/-!
Verification of the Iris coordinator control plane.

This file shallowly embeds the parts of the Iris coordinator that the
verified properties are about: the per-node circuit breaker and tier
scoring (`src/coordinator/node_registry.py`), worker selection
(`select_nodes_v3`), load accounting, the streaming manager
(`src/coordinator/streaming.py`), the reputation deltas
(`src/coordinator/reputation.py`), the crypto envelope
(`src/shared/crypto_utils.py`), and the task orchestrator's assignment,
wait/reassignment and result/error handling
(`src/coordinator/task_orchestrator.py`).

Conventions of the embedding:
* wall-clock instants are natural numbers (seconds); Python's
  `datetime.utcnow()` becomes an explicit `now : Nat` argument,
* Python floats are embedded as rationals,
* Python dicts keyed by id become association lists,
* network and database effects are reified: sends, sleeps and waits are
  recorded in an event trace, database rows live in an explicit state,
* sources of randomness (`random.sample`, `random.uniform`) become an
  explicit stream `rand : Nat -> Nat` of draws,
* `asyncio` concurrency is sequentialized: each handler is a state
  transformer, and the outcome of awaiting a subtask completion event is
  given by an oracle argument.
-/

namespace Iris

/-! ## Shared model enums (`src/shared/models.py`) -/

/-- `TaskStatus` from `src/shared/models.py` (the `PARTIAL` member is named
`partialSt` here because `partial` is a Lean keyword). -/
inductive TaskStatus
  | pending
  | processing
  | completed
  | failed
  | partialSt
deriving DecidableEq, Repr

/-- `TaskDifficulty` from `src/shared/models.py`. -/
inductive TaskDifficulty
  | simple
  | complex
  | advanced
deriving DecidableEq, Repr

/-- `NodeTier` from `src/shared/models.py`. -/
inductive NodeTier
  | basic
  | standard
  | premium
deriving DecidableEq, Repr

/-- `TaskMode` from `src/shared/models.py`. -/
inductive TaskMode
  | consensus
  | subtasks
  | context
deriving DecidableEq, Repr

/-- `SubtaskStatus` from `src/shared/models.py`. -/
inductive SubtaskStatus
  | pending
  | assigned
  | completed
  | failed
  | timeout
deriving DecidableEq, Repr

/-- `ReputationChangeReason` members used by the reputation system. -/
inductive ReputationChangeReason
  | taskCompleted
  | taskFast
  | taskTimeout
  | taskInvalid
  | uptimeHour
  | uptimeBroken
  | weeklyDecay
deriving DecidableEq, Repr

/-! ## Circuit breaker (`src/coordinator/node_registry.py`, lines 44-111) -/

/-- `CIRCUIT_BREAKER_FAILURE_THRESHOLD = 3`. -/
def CIRCUIT_BREAKER_FAILURE_THRESHOLD : Nat := 3

/-- `CIRCUIT_BREAKER_RECOVERY_TIMEOUT = timedelta(minutes=5)`, in seconds. -/
def CIRCUIT_BREAKER_RECOVERY_TIMEOUT : Nat := 300

/-- The three states of `NodeCircuitBreaker.state` ("closed", "open",
"half_open"); "open" is named `opened` because `open` is a Lean keyword. -/
inductive BreakerState
  | closed
  | opened
  | halfOpen
deriving DecidableEq, Repr

/-- `NodeCircuitBreaker` dataclass: failure/success counters, last event
times and the three-valued state, with the dataclass defaults. -/
structure NodeCircuitBreaker where
  failure_count : Nat := 0
  success_count : Nat := 0
  last_failure : Option Nat := none
  last_success : Option Nat := none
  state : BreakerState := .closed
deriving DecidableEq, Repr

instance : Inhabited NodeCircuitBreaker := ⟨{}⟩

/-- `NodeCircuitBreaker.record_failure`: increment the failure count, stamp
`last_failure`, reset the success streak, and open the breaker when the
count reaches the threshold. -/
def NodeCircuitBreaker.record_failure (b : NodeCircuitBreaker) (now : Nat) :
    NodeCircuitBreaker :=
  let b1 := { b with
    failure_count := b.failure_count + 1
    last_failure := some now
    success_count := 0 }
  if b1.failure_count ≥ CIRCUIT_BREAKER_FAILURE_THRESHOLD then
    { b1 with state := .opened }
  else b1

/-- `NodeCircuitBreaker.record_success`: bump the success streak; a success
in `half_open` closes the breaker and zeroes the failure count; three
consecutive successes in any other state heal one failure (the count is
lowered with `max(0, failure_count - 1)`, which is `Nat` subtraction here). -/
def NodeCircuitBreaker.record_success (b : NodeCircuitBreaker) (now : Nat) :
    NodeCircuitBreaker :=
  let b1 := { b with
    success_count := b.success_count + 1
    last_success := some now }
  if b1.state = .halfOpen then
    { b1 with state := .closed, failure_count := 0 }
  else if b1.success_count ≥ 3 ∧ b1.failure_count > 0 then
    { b1 with failure_count := b1.failure_count - 1, success_count := 0 }
  else b1

/-- `NodeCircuitBreaker.is_available`: `closed` and `half_open` are
available; `open` is unavailable until the recovery timeout has passed
since `last_failure`, at which point the check itself moves the breaker to
`half_open` and reports it available. Returns the answer together with the
(possibly updated) breaker. -/
def NodeCircuitBreaker.is_available (b : NodeCircuitBreaker) (now : Nat) :
    Bool × NodeCircuitBreaker :=
  if b.state = .closed then (true, b)
  else if b.state = .opened then
    match b.last_failure with
    | some t =>
        if now - t > CIRCUIT_BREAKER_RECOVERY_TIMEOUT then
          (true, { b with state := .halfOpen })
        else (false, b)
    | none => (false, b)
  else (true, b)

/-- `CircuitBreakerManager`: one breaker per node id, created on demand. -/
structure CircuitBreakerManager where
  breakers : List (String × NodeCircuitBreaker) := []
deriving DecidableEq, Repr

/-- `CircuitBreakerManager._get_or_create`. -/
def CircuitBreakerManager.get_or_create (m : CircuitBreakerManager)
    (node_id : String) : NodeCircuitBreaker :=
  (m.breakers.lookup node_id).getD {}

/-- Replace (or insert) the breaker stored for a node id. -/
def CircuitBreakerManager.setBreaker (m : CircuitBreakerManager)
    (node_id : String) (b : NodeCircuitBreaker) : CircuitBreakerManager :=
  { m with breakers :=
      if (m.breakers.lookup node_id).isSome then
        m.breakers.map fun p => if p.1 = node_id then (node_id, b) else p
      else (node_id, b) :: m.breakers }

/-- `CircuitBreakerManager.record_failure`. -/
def CircuitBreakerManager.record_failure (m : CircuitBreakerManager)
    (node_id : String) (now : Nat) : CircuitBreakerManager :=
  m.setBreaker node_id ((m.get_or_create node_id).record_failure now)

/-- `CircuitBreakerManager.record_success`. -/
def CircuitBreakerManager.record_success (m : CircuitBreakerManager)
    (node_id : String) (now : Nat) : CircuitBreakerManager :=
  m.setBreaker node_id ((m.get_or_create node_id).record_success now)

/-- `CircuitBreakerManager.is_available`: a node with no breaker yet is
available; otherwise defer to the breaker, persisting the state change an
availability check may make (`open` to `half_open`). -/
def CircuitBreakerManager.is_available (m : CircuitBreakerManager)
    (node_id : String) (now : Nat) : Bool × CircuitBreakerManager :=
  match m.breakers.lookup node_id with
  | none => (true, m)
  | some b =>
      let r := b.is_available now
      (r.1, m.setBreaker node_id r.2)

/-- The breaker state recorded for a node (fresh breakers are `closed`). -/
def CircuitBreakerManager.stateOf (m : CircuitBreakerManager)
    (node_id : String) : BreakerState :=
  (m.get_or_create node_id).state

/-! ## Tier scoring (`calculate_node_tier`, node_registry.py lines 215-272) -/

/-- `calculate_node_tier(vram_gb, model_params, tokens_per_second)`:
bucketed points for VRAM, model size and speed, summed and thresholded at
61 (premium) and 21 (standard). -/
def calculate_node_tier (vram_gb model_params tokens_per_second : ℚ) :
    NodeTier :=
  let score : ℤ := 0
  let score := score +
    (if vram_gb ≥ 24 then 25
     else if vram_gb ≥ 16 then 20
     else if vram_gb ≥ 12 then 15
     else if vram_gb ≥ 8 then 10
     else 0)
  let score := score +
    (if model_params ≥ 100 then 65
     else if model_params ≥ 70 then 50
     else if model_params ≥ 30 then 40
     else if model_params ≥ 13 then 25
     else if model_params ≥ 7 then 15
     else if model_params ≥ 3 then 5
     else 0)
  let score := score +
    (if tokens_per_second ≥ 50 then 25
     else if tokens_per_second ≥ 20 then 15
     else if tokens_per_second ≥ 10 then 10
     else 0)
  if score ≥ 61 then .premium
  else if score ≥ 21 then .standard
  else .basic

/-- VRAM bucket exactly as the specification words it:
at least 24 gives 25 points, 16 gives 20, 12 gives 15, 8 gives 10, else 0. -/
def specVramPoints (vram_gb : ℚ) : ℤ :=
  if vram_gb ≥ 24 then 25
  else if vram_gb ≥ 16 then 20
  else if vram_gb ≥ 12 then 15
  else if vram_gb ≥ 8 then 10
  else 0

/-- Model-parameter bucket as the specification words it. -/
def specParamPoints (model_params : ℚ) : ℤ :=
  if model_params ≥ 100 then 65
  else if model_params ≥ 70 then 50
  else if model_params ≥ 30 then 40
  else if model_params ≥ 13 then 25
  else if model_params ≥ 7 then 15
  else if model_params ≥ 3 then 5
  else 0

/-- Speed bucket as the specification words it. -/
def specSpeedPoints (tokens_per_second : ℚ) : ℤ :=
  if tokens_per_second ≥ 50 then 25
  else if tokens_per_second ≥ 20 then 15
  else if tokens_per_second ≥ 10 then 10
  else 0

/-- The specification's total point count for a capability triple. -/
def specTierPoints (vram_gb model_params tokens_per_second : ℚ) : ℤ :=
  specVramPoints vram_gb + specParamPoints model_params +
    specSpeedPoints tokens_per_second

/-- The specification's thresholding of the point total into a tier. -/
def specTierOfPoints (total : ℤ) : NodeTier :=
  if total ≥ 61 then .premium
  else if 21 ≤ total ∧ total ≤ 60 then .standard
  else .basic

/-! ## Connected nodes and the registry (node_registry.py) -/

/-- `HEARTBEAT_TIMEOUT = timedelta(seconds=90)`. -/
def HEARTBEAT_TIMEOUT : Nat := 90

/-- `ConnectedNode` dataclass (runtime state of a connected worker). The
live websocket channel is not part of the embedded state; sends go through
an oracle. Loads are integers so that non-negativity is a real statement. -/
structure ConnectedNode where
  node_id : String
  public_key : String
  model_name : String
  max_context : Nat
  vram_gb : ℚ
  current_load : ℤ := 0
  connected_at : Nat
  last_heartbeat : Nat
  latency_ms : Option ℚ := none
  gpu_name : String := "Unknown"
  model_params : ℚ := 7
  model_quantization : String := "Q4"
  tokens_per_second : ℚ := 0
  node_tier : NodeTier := .basic
  supports_vision : Bool := false
deriving DecidableEq, Repr

/-- The registry's `self._nodes` dict, as the list of its values (Python
dict keys are the `node_id` fields). -/
structure NodeRegistry where
  nodes : List ConnectedNode := []
deriving DecidableEq, Repr

/-- `NodeRegistry.get_node`. -/
def NodeRegistry.get_node (r : NodeRegistry) (node_id : String) :
    Option ConnectedNode :=
  r.nodes.find? fun n => n.node_id = node_id

/-- `NodeRegistry.get_vision_capable_nodes`. -/
def NodeRegistry.get_vision_capable_nodes (r : NodeRegistry) :
    List ConnectedNode :=
  r.nodes.filter fun n => n.supports_vision

/-- `NodeRegistry.is_online`: a connected node is online iff less than
`HEARTBEAT_TIMEOUT` seconds passed since its last heartbeat. -/
def NodeRegistry.is_online (r : NodeRegistry) (node_id : String) (now : Nat) :
    Bool :=
  match r.get_node node_id with
  | none => false
  | some node => now - node.last_heartbeat < HEARTBEAT_TIMEOUT

/-- `NodeRegistry.increment_load` (no-op on unknown ids). -/
def NodeRegistry.increment_load (r : NodeRegistry) (node_id : String) :
    NodeRegistry :=
  { r with nodes := r.nodes.map fun n =>
      if n.node_id = node_id then { n with current_load := n.current_load + 1 }
      else n }

/-- `NodeRegistry.decrement_load`: the load is replaced with
`max(0, current_load - 1)` (no-op on unknown ids). -/
def NodeRegistry.decrement_load (r : NodeRegistry) (node_id : String) :
    NodeRegistry :=
  { r with nodes := r.nodes.map fun n =>
      if n.node_id = node_id then
        { n with current_load := max 0 (n.current_load - 1) }
      else n }

/-- The load currently recorded for a node id (0 if not connected). -/
def NodeRegistry.loadOf (r : NodeRegistry) (node_id : String) : ℤ :=
  ((r.get_node node_id).map ConnectedNode.current_load).getD 0

/-! ## Worker selection (`select_nodes_v3`, node_registry.py lines 811-949) -/

/-- `SELECTION_WEIGHTS`. -/
def WEIGHT_EXPECTED_DELAY : ℚ := 40 / 100
def WEIGHT_REPUTATION : ℚ := 30 / 100
def WEIGHT_TIER_MATCH : ℚ := 20 / 100
def WEIGHT_RANDOM : ℚ := 10 / 100

/-- `TIER_DIFFICULTY_SCORE` matching matrix. The Python dict is total on
the nine tier/difficulty pairs, so the `.get(..., 0.5)` default is dead. -/
def TIER_DIFFICULTY_SCORE (tier : NodeTier) (difficulty : TaskDifficulty) :
    ℚ :=
  match tier, difficulty with
  | .basic, .simple => 1
  | .basic, .complex => 6 / 10
  | .basic, .advanced => 2 / 10
  | .standard, .simple => 8 / 10
  | .standard, .complex => 1
  | .standard, .advanced => 7 / 10
  | .premium, .simple => 5 / 10
  | .premium, .complex => 9 / 10
  | .premium, .advanced => 1

/-- A draw of `random.uniform(0, 1)` from the reified random stream: draw
`k` is embedded as `rand k / 1000` reduced into `[0, 1)`. -/
def uniform01 (rand : Nat → Nat) (k : Nat) : ℚ :=
  (rand k % 1000 : ℕ) / 1000

/-- Python's `x or 1` applied to a rational maximum (`max(...) or 1` in
`select_nodes_v3`): zero is falsy and becomes 1. -/
def orOne (q : ℚ) : ℚ := if q = 0 then 1 else q

/-- The per-node reputation values `select_nodes_v3` reads from the
database; a missing row defaults to 100 (`db_node.get("reputation", 100)`),
which the association-list lookup's default mirrors. -/
def reputationOf (reps : List (String × ℚ)) (node_id : String) : ℚ :=
  (reps.lookup node_id).getD 100

/-- `calculate_score` inside `select_nodes_v3`: 0.40 of the inverted
expected delay `1 / (1 + load / max(tps, 1))`, 0.30 of normalized
reputation, 0.20 of the tier/difficulty match, 0.10 exploration. `randk`
indexes the reified random stream for this node's `random.uniform(0,1)`. -/
def calculate_score (reps : List (String × ℚ)) (max_rep : ℚ)
    (difficulty : TaskDifficulty) (rand : Nat → Nat) (randk : Nat)
    (node : ConnectedNode) : ℚ :=
  let tps := max node.tokens_per_second 1
  let expected_delay := (node.current_load : ℚ) / tps
  let delay_score := 1 / (1 + expected_delay)
  let rep_score := reputationOf reps node.node_id / max_rep
  let tier_score := TIER_DIFFICULTY_SCORE node.node_tier difficulty
  let random_factor := uniform01 rand randk
  WEIGHT_EXPECTED_DELAY * delay_score + WEIGHT_REPUTATION * rep_score +
    WEIGHT_TIER_MATCH * tier_score + WEIGHT_RANDOM * random_factor

/-- The traversal behind the availability filter at the head of
`select_nodes_v3`: walk the registry's node list, keeping nodes that are
not excluded, online (looked up against the full registry `r`, as
`self.is_online` does), and whose breaker admits them; the breaker checks
thread the manager state (an `open` breaker past its recovery timeout
flips to `half_open` during the very check), with the same short-circuit
order as the Python conjunction. -/
def filterAvailableGo (r : NodeRegistry) (now : Nat)
    (exclude : List String) :
    List ConnectedNode → CircuitBreakerManager →
    List ConnectedNode × CircuitBreakerManager
  | [], m => ([], m)
  | node :: rest, m =>
      if node.node_id ∉ exclude then
        if r.is_online node.node_id now then
          let av := m.is_available node.node_id now
          let tail := filterAvailableGo r now exclude rest av.2
          if av.1 then (node :: tail.1, tail.2) else tail
        else filterAvailableGo r now exclude rest m
      else filterAvailableGo r now exclude rest m

/-- The availability filter of `select_nodes_v3` (lines 843-848). -/
def filterAvailable (r : NodeRegistry) (now : Nat) (exclude : List String)
    (m : CircuitBreakerManager) :
    List ConnectedNode × CircuitBreakerManager :=
  filterAvailableGo r now exclude r.nodes m

/-- Python `list.pop()`: remove and return the last element. -/
def popLast (l : List ConnectedNode) :
    Option (ConnectedNode × List ConnectedNode) :=
  match l.getLast? with
  | none => none
  | some x => some (x, l.dropLast)

instance : Inhabited ConnectedNode :=
  ⟨{ node_id := "", public_key := "", model_name := "", max_context := 0,
     vram_gb := 0, connected_at := 0, last_heartbeat := 0 }⟩

/-- One `random.sample(candidates, 2)` draw from the reified stream:
pick index `rand k mod len` for the first element, then an index into the
remaining list for the second. Only called with at least two candidates. -/
def sampleTwo (rand : Nat → Nat) (k : Nat) (candidates : List ConnectedNode) :
    ConnectedNode × ConnectedNode :=
  let i := rand k % candidates.length
  let first := (candidates.get? i).getD default
  let rest := candidates.eraseIdx i
  let j := rand (k + 1) % rest.length
  let second := (rest.get? j).getD default
  (first, second)

/-- The Power-of-Two-Choices loop of `select_nodes_v3`: for each of up to
`fuel = min n available.length` rounds, pop the single remaining candidate,
or sample two, score them and keep the better (Python's `max` keeps the
first of a tied pair), removing the pick from the candidate pool. `randk`
advances by 2 for the sample and 2 for the two score draws. -/
def p2cLoop (reps : List (String × ℚ)) (max_rep : ℚ)
    (difficulty : TaskDifficulty) (rand : Nat → Nat) :
    Nat → Nat → List ConnectedNode → List ConnectedNode
  | 0, _, _ => []
  | _ + 1, _, [] => []
  | fuel + 1, randk, candidates =>
      match popLast candidates with
      | none => []
      | some (last, rest) =>
          if candidates.length = 1 then
            last :: p2cLoop reps max_rep difficulty rand fuel randk rest
          else
            let pair := sampleTwo rand randk candidates
            let s1 := calculate_score reps max_rep difficulty rand
              (randk + 2) pair.1
            let s2 := calculate_score reps max_rep difficulty rand
              (randk + 3) pair.2
            let best := if s2 > s1 then pair.2 else pair.1
            best :: p2cLoop reps max_rep difficulty rand fuel (randk + 4)
              (candidates.erase best)

/-- `NodeRegistry.select_nodes_v3`: filter the available candidates (also
updating breaker states), return the empty list when none remain, and
otherwise run the Power-of-Two-Choices selection. Reputations come from
the reified database snapshot `reps`. -/
def NodeRegistry.select_nodes_v3 (r : NodeRegistry) (now : Nat)
    (m : CircuitBreakerManager) (reps : List (String × ℚ))
    (rand : Nat → Nat) (difficulty : TaskDifficulty) (n : Nat)
    (exclude : List String) :
    List ConnectedNode × CircuitBreakerManager :=
  let fa := filterAvailable r now exclude m
  let available := fa.1
  if available = [] then ([], fa.2)
  else
    let max_rep := orOne
      ((available.map fun node => reputationOf reps node.node_id).foldr
        max 0)
    (p2cLoop reps max_rep difficulty rand (min n available.length) 0
      available, fa.2)

/-! ## Crypto envelope (`src/shared/crypto_utils.py`)

The envelope composes four external primitives (the `cryptography`
package's X25519, HKDF-SHA256 and AES-256-GCM, and the standard library's
base64 codec). The embedding keeps the repository's composition logic —
what is concatenated, sliced and fed to what — and abstracts the external
primitives behind a `CryptoPrims` bundle; their contracts (Diffie-Hellman
agreement, AEAD round trip, codec round trips) become hypotheses of the
round-trip theorem. -/

/-- `NONCE_SIZE = 12`. -/
def NONCE_SIZE : Nat := 12

/-- `SALT_SIZE = 16`. -/
def SALT_SIZE : Nat := 16

/-- The external primitives `crypto_utils.py` calls, over abstract types
of private keys, public keys, bytes and wire blobs. -/
structure CryptoPrims (Priv Pub Byt Blob : Type) where
  exchange : Priv → Pub → List Byt
  hkdf : List Byt → List Byt → List Byt → List Byt
  infoDefault : List Byt
  aesgcm_encrypt : List Byt → List Byt → List Byt → List Byt
  aesgcm_decrypt : List Byt → List Byt → List Byt → Option (List Byt)
  b64encode : List Byt → Blob
  b64decode : Blob → List Byt
  utf8Encode : String → List Byt
  utf8Decode : List Byt → Option String

/-- `KeyPair` dataclass. -/
structure KeyPair (Priv Pub : Type) where
  private_key : Priv
  public_key : Pub

/-- `derive_shared_key`: X25519 exchange then HKDF-SHA256 with the given
salt and the module's default `info`; returns the derived key and the salt
(the caller supplies the salt, standing for `os.urandom(SALT_SIZE)` when
the source generates it). -/
def derive_shared_key {Priv Pub Byt Blob : Type}
    (P : CryptoPrims Priv Pub Byt Blob) (private_key : Priv)
    (peer_public_key : Pub) (salt : List Byt) : List Byt × List Byt :=
  let shared_secret := P.exchange private_key peer_public_key
  let derived_key := P.hkdf shared_secret salt P.infoDefault
  (derived_key, salt)

/-- `encrypt_data`: AES-256-GCM under a fresh nonce (supplied, standing
for `os.urandom(NONCE_SIZE)`), returning `nonce || ciphertext || tag`. -/
def encrypt_data {Priv Pub Byt Blob : Type}
    (P : CryptoPrims Priv Pub Byt Blob) (key plaintext nonce : List Byt) :
    List Byt :=
  nonce ++ P.aesgcm_encrypt key nonce plaintext

/-- `decrypt_data`: split off the nonce and decrypt; tag mismatch
(`InvalidTag`) is `none`. -/
def decrypt_data {Priv Pub Byt Blob : Type}
    (P : CryptoPrims Priv Pub Byt Blob) (key encrypted : List Byt) :
    Option (List Byt) :=
  let nonce := encrypted.take NONCE_SIZE
  let ciphertext := encrypted.drop NONCE_SIZE
  P.aesgcm_decrypt key nonce ciphertext

/-- `encrypt_for_recipient`: derive the shared key, encrypt the UTF-8
encoded plaintext, and emit `base64(salt || nonce || ciphertext || tag)`. -/
def encrypt_for_recipient {Priv Pub Byt Blob : Type}
    (P : CryptoPrims Priv Pub Byt Blob) (our_keypair : KeyPair Priv Pub)
    (recipient_public_key : Pub) (plaintext : String)
    (salt nonce : List Byt) : Blob :=
  let pt := P.utf8Encode plaintext
  let ks := derive_shared_key P our_keypair.private_key recipient_public_key
    salt
  let encrypted := encrypt_data P ks.1 pt nonce
  P.b64encode (ks.2 ++ encrypted)

/-- `decrypt_from_sender`: decode, split the salt off the front, re-derive
the shared key with it, decrypt and UTF-8 decode. Failure is `none`. -/
def decrypt_from_sender {Priv Pub Byt Blob : Type}
    (P : CryptoPrims Priv Pub Byt Blob) (our_keypair : KeyPair Priv Pub)
    (sender_public_key : Pub) (encrypted_b64 : Blob) : Option String :=
  let data := P.b64decode encrypted_b64
  let salt := data.take SALT_SIZE
  let encrypted := data.drop SALT_SIZE
  let ks := derive_shared_key P our_keypair.private_key sender_public_key
    salt
  (decrypt_data P ks.1 encrypted).bind P.utf8Decode

/-! ## Streaming manager (`src/coordinator/streaming.py`) -/

/-- A queue element `{"type": ..., "content": ...}`. -/
structure StreamItem where
  type : String
  content : Option String
deriving DecidableEq, Repr

/-- `StreamingTask` dataclass: the per-task queue and completion flags.
The embedded `queue` records every item ever enqueued, in order. -/
structure StreamingTask where
  task_id : String
  queue : List StreamItem := []
  created_at : Nat := 0
  chunks_received : Nat := 0
  is_complete : Bool := false
  final_response : Option String := none
  error : Option String := none
deriving DecidableEq, Repr

/-- `StreamingManager`'s `self._tasks` dict. -/
structure StreamingManager where
  tasks : List (String × StreamingTask) := []
deriving DecidableEq, Repr

/-- Replace the session stored under a task id. -/
def StreamingManager.setTask (m : StreamingManager) (task_id : String)
    (s : StreamingTask) : StreamingManager :=
  { m with tasks := m.tasks.map fun p =>
      if p.1 = task_id then (task_id, s) else p }

/-- `StreamingManager.create_stream`: idempotent per task id. -/
def StreamingManager.create_stream (m : StreamingManager) (task_id : String)
    (now : Nat) : StreamingManager :=
  match m.tasks.lookup task_id with
  | some _ => m
  | none =>
      { m with tasks := (task_id,
          { task_id := task_id, created_at := now }) :: m.tasks }

/-- Python truthiness of an optional string (`if error:`): `None` and the
empty string are falsy. -/
def strTruthy : Option String → Bool
  | none => false
  | some s => s ≠ ""

/-- `StreamingManager.push_chunk`: enqueue a chunk item on an existing
session (no completion check) and count it; unknown task ids are dropped. -/
def StreamingManager.push_chunk (m : StreamingManager) (task_id chunk : String) :
    Bool × StreamingManager :=
  match m.tasks.lookup task_id with
  | none => (false, m)
  | some s =>
      (true, m.setTask task_id
        { s with
          queue := s.queue ++ [{ type := "chunk", content := some chunk }]
          chunks_received := s.chunks_received + 1 })

/-- `StreamingManager.complete_stream`: mark the session complete, record
the outcome and enqueue one terminal sentinel — an `error` item when the
error message is truthy, a `done` item otherwise. There is no check that
the session was still incomplete. -/
def StreamingManager.complete_stream (m : StreamingManager) (task_id : String)
    (final_response error : Option String) : Bool × StreamingManager :=
  match m.tasks.lookup task_id with
  | none => (false, m)
  | some s =>
      let s1 := { s with
        is_complete := true
        final_response := final_response
        error := error }
      let item : StreamItem :=
        if strTruthy error then { type := "error", content := error }
        else { type := "done", content := final_response }
      (true, m.setTask task_id { s1 with queue := s1.queue ++ [item] })

/-- Whether a queue item is a terminal sentinel. -/
def StreamItem.isSentinel (it : StreamItem) : Bool :=
  it.type = "done" ∨ it.type = "error"

/-! ## Reputation deltas (`src/coordinator/reputation.py`) -/

def INITIAL_REPUTATION : ℚ := 100
def MIN_REPUTATION : ℚ := 10
def TASK_COMPLETED_POINTS : ℚ := 10
def TASK_FAST_BONUS : ℚ := 5
def TASK_TIMEOUT_PENALTY : ℚ := -20
def TASK_INVALID_PENALTY : ℚ := -50
def FAST_THRESHOLD_MS : Nat := 30000

/-- `ReputationSystem._update_reputation`'s clamp:
`max(MIN_REPUTATION, current + change)`. -/
def update_reputation (current change : ℚ) : ℚ :=
  max MIN_REPUTATION (current + change)

/-- The delta and reason `record_task_completed` applies: +10, plus the +5
fast bonus below the 30 s threshold. -/
def task_completed_delta (execution_time_ms : Nat) :
    ℚ × ReputationChangeReason :=
  if execution_time_ms < FAST_THRESHOLD_MS then
    (TASK_COMPLETED_POINTS + TASK_FAST_BONUS, .taskFast)
  else (TASK_COMPLETED_POINTS, .taskCompleted)

/-- The delta and reason `record_task_failed` applies: the invalid-response
penalty for `INVALID_RESPONSE` / `DECRYPTION_FAILED` error codes, the
generic timeout penalty otherwise. -/
def task_failed_delta (error_code : String) : ℚ × ReputationChangeReason :=
  if error_code = "INVALID_RESPONSE" ∨ error_code = "DECRYPTION_FAILED" then
    (TASK_INVALID_PENALTY, .taskInvalid)
  else (TASK_TIMEOUT_PENALTY, .taskTimeout)

/-! ## Task orchestrator (`src/coordinator/task_orchestrator.py`)

Database rows, the coordinator's in-memory maps and the streaming manager
are bundled in one `CoordState`; network sends, sleeps, waits and
reputation writes are additionally recorded in an event trace. Awaiting a
subtask's completion event is resolved by the `waitOutcome` oracle
(standing for a concurrent `handle_task_result` setting the event in
time), encryption goes through string-level oracles (the envelope itself
is verified separately above), and the externally-plugged pieces — the
PDF summarizer, the difficulty classifier and the regex prompt dividers —
are function parameters. -/

/-- `MAX_RETRIES = 3`. -/
def MAX_RETRIES : Nat := 3

/-- `RETRY_BASE_DELAY = 1.0` seconds. -/
def RETRY_BASE_DELAY : ℚ := 1

/-- `DIFFICULTY_TIMEOUTS` plus the `DEFAULT_TIMEOUT` fallback (the dict is
total on the three difficulties, so the fallback is dead). -/
def get_timeout_for_difficulty : TaskDifficulty → Nat
  | .simple => 60
  | .complex => 300
  | .advanced => 600

/-- `FileAttachment` from `src/shared/models.py` (validated fields only). -/
structure FileAttachment where
  filename : String
  mime_type : String
  content_base64 : String
  size_bytes : Nat
deriving DecidableEq, Repr

/-- `FileAttachment.is_image`: the MIME type starts with `image/`
(string prefix test, taken at the character level). -/
def FileAttachment.is_image (f : FileAttachment) : Bool :=
  List.isPrefixOf "image/".data f.mime_type.data

/-- `FileAttachment.is_pdf`. -/
def FileAttachment.is_pdf (f : FileAttachment) : Bool :=
  f.mime_type = "application/pdf"

/-- A row of the `tasks` table. -/
structure TaskRow where
  id : String
  user_id : String
  mode : TaskMode
  original_prompt : String
  difficulty : TaskDifficulty
  has_files : Bool := false
  status : TaskStatus := .pending
  final_response : Option String := none
  completed_at : Option Nat := none
deriving DecidableEq, Repr

/-- A row of the `subtasks` table. -/
structure SubtaskRow where
  id : String
  task_id : String
  node_id : Option String := none
  prompt : String
  encrypted_prompt : Option String := none
  response : Option String := none
  encrypted_response : Option String := none
  status : SubtaskStatus := .pending
  assigned_at : Option Nat := none
  completed_at : Option Nat := none
  execution_time_ms : Option Nat := none
deriving DecidableEq, Repr

/-- The coordinator state the orchestrator touches: the node registry and
circuit breakers, the streaming manager, the task and subtask tables, the
orchestrator's `_pending_subtasks` keys and already-set events, its
`_subtask_results` cache, and the nodes' reputation column. -/
structure CoordState where
  registry : NodeRegistry := {}
  breakers : CircuitBreakerManager := {}
  streams : StreamingManager := {}
  tasks : List (String × TaskRow) := []
  subtasks : List (String × SubtaskRow) := []
  pending : List String := []
  signaled : List String := []
  results : List (String × String) := []
  reputations : List (String × ℚ) := []
deriving DecidableEq, Repr

/-- Externally visible actions of the orchestrator, in order. -/
inductive Event
  | taskAssign (node_id subtask_id : String)
  | cbFailure (node_id : String)
  | cbSuccess (node_id : String)
  | loadInc (node_id : String)
  | loadDec (node_id : String)
  | repEvent (node_id : String) (delta : ℚ) (reason : ReputationChangeReason)
  | sleep (seconds : ℚ)
  | waitFor (subtask_id : String) (timeout : Nat)
deriving DecidableEq, Repr

/-- The resolution of the orchestrator's external interactions: the random
stream, websocket send success per node and attempt, the string-level
crypto (a `none` decryption is an `InvalidTag`), and whether a subtask's
completion event gets set within wait round 0 (first wait) or 1
(post-reassignment wait). -/
structure Oracles where
  rand : Nat → Nat
  sendOk : String → Nat → Bool
  encryptForNode : String → String → String
  decryptFromNode : String → String → Option String
  waitOutcome : String → Nat → Bool

/-- `db.update_task_status`: set the status, and the final response and
completion time only when a response is given. -/
def CoordState.update_task_status (st : CoordState) (now : Nat)
    (task_id : String) (status : TaskStatus)
    (final_response : Option String) : CoordState :=
  { st with tasks := st.tasks.map fun p =>
      if p.1 = task_id then
        (p.1, match final_response with
          | some r => { p.2 with
              status := status, final_response := some r,
              completed_at := some now }
          | none => { p.2 with status := status })
      else p }

/-- `db.assign_subtask`: record the node, the encrypted prompt, status
`assigned` and the assignment time. -/
def CoordState.assign_subtask (st : CoordState) (now : Nat)
    (subtask_id node_id encrypted_prompt : String) : CoordState :=
  { st with subtasks := st.subtasks.map fun p =>
      if p.1 = subtask_id then
        (p.1, { p.2 with
          node_id := some node_id
          encrypted_prompt := some encrypted_prompt
          status := .assigned
          assigned_at := some now })
      else p }

/-- `db.complete_subtask`. -/
def CoordState.complete_subtask (st : CoordState) (now : Nat)
    (subtask_id response encrypted_response : String)
    (execution_time_ms : Nat) : CoordState :=
  { st with subtasks := st.subtasks.map fun p =>
      if p.1 = subtask_id then
        (p.1, { p.2 with
          response := some response
          encrypted_response := some encrypted_response
          status := .completed
          completed_at := some now
          execution_time_ms := some execution_time_ms })
      else p }

/-- `db.fail_subtask`: set the given terminal status (`failed` or
`timeout`) and the completion time. -/
def CoordState.fail_subtask (st : CoordState) (now : Nat)
    (subtask_id : String) (status : SubtaskStatus) : CoordState :=
  { st with subtasks := st.subtasks.map fun p =>
      if p.1 = subtask_id then
        (p.1, { p.2 with status := status, completed_at := some now })
      else p }

/-- `db.get_subtasks_by_task`. -/
def CoordState.get_subtasks_by_task (st : CoordState) (task_id : String) :
    List SubtaskRow :=
  (st.subtasks.map Prod.snd).filter fun s => s.task_id = task_id

/-- Lookups for statements: the status column of a task row. -/
def CoordState.taskStatus (st : CoordState) (task_id : String) :
    Option TaskStatus :=
  (st.tasks.lookup task_id).map TaskRow.status

/-- The status column of a subtask row. -/
def CoordState.subtaskStatus (st : CoordState) (subtask_id : String) :
    Option SubtaskStatus :=
  (st.subtasks.lookup subtask_id).map SubtaskRow.status

/-- Update-or-insert of a node's reputation column. -/
def setRep (reps : List (String × ℚ)) (node_id : String) (v : ℚ) :
    List (String × ℚ) :=
  if (reps.lookup node_id).isSome then
    reps.map fun p => if p.1 = node_id then (node_id, v) else p
  else (node_id, v) :: reps

/-- The breaker-and-exclusion filter of the vision branch of
`_assign_subtask_with_retry` (lines 494-497): over the vision-capable
nodes, keep those not excluded whose breaker admits them, threading the
breaker-state updates the checks make. Note there is no online check. -/
def visionFilterGo (now : Nat) (excluded : List String) :
    List ConnectedNode → CircuitBreakerManager →
    List ConnectedNode × CircuitBreakerManager
  | [], m => ([], m)
  | node :: rest, m =>
      if node.node_id ∉ excluded then
        let av := m.is_available node.node_id now
        let tail := visionFilterGo now excluded rest av.2
        if av.1 then (node :: tail.1, tail.2) else tail
      else visionFilterGo now excluded rest m

/-- The retry loop body of `_assign_subtask_with_retry`, recursing over the
remaining attempts (`remaining + attempt = MAX_RETRIES`). Returns the new
state, the trace, the success flag and the assigned node id. -/
def assign_subtask_attempts (o : Oracles) (now : Nat) (subtask : SubtaskRow)
    (difficulty : TaskDifficulty) (files : List FileAttachment) :
    Nat → Nat → List String → CoordState →
    CoordState × List Event × Bool × Option String
  | 0, _, _, st => (st, [], false, none)
  | remaining + 1, attempt, excluded, st =>
      let require_vision := files ≠ []
      let sel :=
        if require_vision then
          let vf := visionFilterGo now excluded
            st.registry.get_vision_capable_nodes st.breakers
          (vf.1.take 1, vf.2)
        else
          st.registry.select_nodes_v3 now st.breakers st.reputations o.rand
            difficulty 1 excluded
      let st := { st with breakers := sel.2 }
      match sel.1 with
      | [] =>
          if require_vision then (st, [], false, none)
          else if attempt < MAX_RETRIES - 1 then
            let delay := RETRY_BASE_DELAY * 2 ^ attempt
            let r := assign_subtask_attempts o now subtask difficulty files
              remaining (attempt + 1) excluded st
            (r.1, Event.sleep delay :: r.2.1, r.2.2)
          else (st, [], false, none)
      | node :: _ =>
          let encrypted_prompt := o.encryptForNode node.public_key
            subtask.prompt
          let st := st.assign_subtask now subtask.id node.node_id
            encrypted_prompt
          let success := o.sendOk node.node_id attempt
          if success then
            let st := { st with
              registry := st.registry.increment_load node.node_id }
            (st, [Event.taskAssign node.node_id subtask.id,
                  Event.loadInc node.node_id], true, some node.node_id)
          else
            let st := { st with
              breakers := st.breakers.record_failure node.node_id now }
            let excluded := excluded ++ [node.node_id]
            if attempt < MAX_RETRIES - 1 then
              let delay := RETRY_BASE_DELAY * 2 ^ attempt
              let r := assign_subtask_attempts o now subtask difficulty files
                remaining (attempt + 1) excluded st
              (r.1, Event.taskAssign node.node_id subtask.id ::
                Event.cbFailure node.node_id :: Event.sleep delay :: r.2.1,
                r.2.2)
            else
              (st, [Event.taskAssign node.node_id subtask.id,
                    Event.cbFailure node.node_id], false, none)

/-- `_assign_subtask_with_retry`: up to `MAX_RETRIES` attempts starting
from attempt 0 with the caller's exclusion set. -/
def assign_subtask_with_retry (st : CoordState) (o : Oracles) (now : Nat)
    (subtask : SubtaskRow) (difficulty : TaskDifficulty)
    (excluded_nodes : List String) (files : List FileAttachment) :
    CoordState × List Event × Bool × Option String :=
  assign_subtask_attempts o now subtask difficulty files MAX_RETRIES 0
    excluded_nodes st

/-- `_assign_subtasks`: assign each subtask in turn (with an empty initial
exclusion set and the task's files); collect successful assignments and
mark the others failed. -/
def assign_subtasks (o : Oracles) (now : Nat) (difficulty : TaskDifficulty)
    (files : List FileAttachment) :
    List SubtaskRow → CoordState →
    CoordState × List Event × List (String × String)
  | [], st => (st, [], [])
  | sub :: rest, st =>
      let r := assign_subtask_with_retry st o now sub difficulty [] files
      match r.2.2.1, r.2.2.2 with
      | true, some node_id =>
          let t := assign_subtasks o now difficulty files rest r.1
          (t.1, r.2.1 ++ t.2.1, (sub.id, node_id) :: t.2.2)
      | _, _ =>
          let st1 := r.1.fail_subtask now sub.id .failed
          let t := assign_subtasks o now difficulty files rest st1
          (t.1, r.2.1 ++ t.2.1, t.2.2)

/-- `_try_reassign_subtask`: look the subtask row up (give up silently if
missing), penalize and unload the failed node if there is one, and try a
fresh assignment excluding it. The reassignment passes no files. -/
def try_reassign_subtask (st : CoordState) (o : Oracles) (now : Nat)
    (subtask_id : String) (difficulty : TaskDifficulty)
    (failed_node_id : Option String) :
    CoordState × List Event × Bool :=
  match st.subtasks.lookup subtask_id with
  | none => (st, [], false)
  | some sub =>
      let excluded := match failed_node_id with
        | some nid => [nid]
        | none => []
      let penalized := match failed_node_id with
        | some nid =>
            ({ st with
               breakers := st.breakers.record_failure nid now
               registry := st.registry.decrement_load nid },
             [Event.cbFailure nid, Event.loadDec nid])
        | none => (st, [])
      let r := assign_subtask_with_retry penalized.1 o now sub difficulty
        excluded []
      (r.1, penalized.2 ++ r.2.1, r.2.2.1)

/-- `_wait_for_single_subtask`: wait up to `timeout`; on timeout try one
reassignment (excluding the previously assigned node) and wait again for
`max(30, timeout // 2)`; if still not completed, mark the subtask
`timeout`. Returns the outcome string of the source. -/
def wait_for_single_subtask (st : CoordState) (o : Oracles) (now : Nat)
    (subtask : SubtaskRow) (difficulty : TaskDifficulty) (timeout : Nat)
    (assignments : List (String × String)) :
    CoordState × List Event × String :=
  let subtask_id := subtask.id
  if subtask_id ∉ st.pending then (st, [], "failed")
  else if o.waitOutcome subtask_id 0 then
    (st, [Event.waitFor subtask_id timeout], "completed")
  else
    let failed_node := assignments.lookup subtask_id
    let r := try_reassign_subtask st o now subtask_id difficulty failed_node
    if r.2.2 then
      let reassign_timeout := max 30 (timeout / 2)
      if o.waitOutcome subtask_id 1 then
        (r.1, Event.waitFor subtask_id timeout :: r.2.1 ++
          [Event.waitFor subtask_id reassign_timeout], "reassigned")
      else
        (r.1.fail_subtask now subtask_id .timeout,
         Event.waitFor subtask_id timeout :: r.2.1 ++
           [Event.waitFor subtask_id reassign_timeout], "timeout")
    else
      (r.1.fail_subtask now subtask_id .timeout,
       Event.waitFor subtask_id timeout :: r.2.1, "timeout")

/-- The gather loop of `_wait_for_completion` (sequentialized). -/
def wait_all (o : Oracles) (now : Nat) (difficulty : TaskDifficulty)
    (timeout : Nat) (assignments : List (String × String)) :
    List SubtaskRow → CoordState → CoordState × List Event
  | [], st => (st, [])
  | sub :: rest, st =>
      if sub.id ∈ st.pending then
        let r := wait_for_single_subtask st o now sub difficulty timeout
          assignments
        let t := wait_all o now difficulty timeout assignments rest r.1
        (t.1, r.2.1 ++ t.2)
      else wait_all o now difficulty timeout assignments rest st

/-- `_wait_for_completion`: register a pending event per subtask, wait for
each, and clean the events up in the `finally` path. -/
def wait_for_completion (st : CoordState) (o : Oracles) (now : Nat)
    (subtasks : List SubtaskRow) (difficulty : TaskDifficulty)
    (assignments : List (String × String)) (timeout : Nat) :
    CoordState × List Event :=
  let ids := subtasks.map SubtaskRow.id
  let st := { st with pending := st.pending ++ ids }
  let r := wait_all o now difficulty timeout assignments subtasks st
  ({ r.1 with pending := r.1.pending.filter fun i => i ∉ ids }, r.2)

/-! ## Response aggregation (`src/coordinator/response_aggregator.py`) -/

/-- `ResponseAggregator.aggregate` (lines 27-67): fetch the task's subtask
rows, fall back to fixed messages when there are no rows or no completed
rows with a truthy response, and otherwise dispatch on the mode. The three
regex-based mode aggregators (`_aggregate_subtasks`, `_aggregate_consensus`,
`_aggregate_context`) are function parameters, applied to the completed
rows and the original prompt exactly as the dispatch does. -/
def aggregate (rows : List SubtaskRow) (mode : TaskMode)
    (original_prompt : String)
    (aggSubtasks aggConsensus aggContext :
      List SubtaskRow → String → String) : String :=
  if rows = [] then "No results available."
  else
    let completed := rows.filter fun s =>
      s.status = SubtaskStatus.completed ∧ strTruthy s.response
    if completed = [] then
      let failed_count :=
        (rows.filter fun s => s.status = SubtaskStatus.failed).length
      let timeout_count :=
        (rows.filter fun s => s.status = SubtaskStatus.timeout).length
      "Task failed. " ++ toString failed_count ++ " subtasks failed, " ++
        toString timeout_count ++ " timed out."
    else
      match mode with
      | .subtasks => aggSubtasks completed original_prompt
      | .consensus => aggConsensus completed original_prompt
      | .context => aggContext completed original_prompt

/-! ## Task lifecycle (`create_task` and `_process_task`) -/

/-- The error message `_process_task` fails a file task with when no
assignment succeeded (line 268). -/
def visionFailMessage : String :=
  "No hay nodos con capacidad de visión disponibles para procesar los archivos. Por favor, inténtalo más tarde cuando haya un nodo con modelo de visión (LLaVA, Gemma-3, etc.) conectado."

/-- `", ".join(f.filename for f in images)`. -/
def imageNames (images : List FileAttachment) : String :=
  String.intercalate ", " (images.map FileAttachment.filename)

/-- The note `create_task` prepends to the prompt when images are attached
but no vision-capable node is connected (lines 155-158). -/
def noVisionNote (names : String) : String :=
  "NOTA: El usuario adjuntó imágenes (" ++ names ++
    ") pero no hay nodos con capacidad de visión disponibles. No es posible procesar las imágenes en este momento.\n\n"

/-- The file-processing prelude of `create_task` (lines 101-166): split the
files into images and PDFs, run the external PDF summarizer (a parameter)
over the PDFs, retain the images for vision routing only when some
vision-capable node is connected — otherwise drop them and prepend the
explanatory note — and force difficulty `advanced` whenever files are
attached. Returns (processed prompt, vision files, difficulty). -/
def create_task_files (registry : NodeRegistry)
    (processPdfs : List FileAttachment → String → String)
    (prompt : String) (files : List FileAttachment)
    (difficulty0 : Option TaskDifficulty) :
    String × List FileAttachment × Option TaskDifficulty :=
  if files = [] then (prompt, [], difficulty0)
  else
    let images := files.filter FileAttachment.is_image
    let pdfs := files.filter FileAttachment.is_pdf
    let vision_nodes := registry.get_vision_capable_nodes
    let processed1 := if pdfs ≠ [] then processPdfs pdfs prompt else prompt
    let iv :=
      if images ≠ [] then
        if vision_nodes ≠ [] then (processed1, images)
        else (noVisionNote (imageNames images) ++ processed1, [])
      else (processed1, [])
    (iv.1, iv.2, some TaskDifficulty.advanced)

/-- The finalization tail of `_process_task` (lines 290-305): aggregate
the task's subtask rows into the final response and mark the task
completed with it — unconditionally, whatever the subtask outcomes
were. -/
def process_task_finalize (st : CoordState) (now : Nat)
    (task_id prompt : String) (mode : TaskMode)
    (aggSubtasks aggConsensus aggContext :
      List SubtaskRow → String → String) : CoordState :=
  let final_response := aggregate (st.get_subtasks_by_task task_id) mode
    prompt aggSubtasks aggConsensus aggContext
  st.update_task_status now task_id .completed (some final_response)

/-- `_process_task` (lines 208-309): mark the task processing, divide the
prompt by mode (the two regex dividers are parameters; consensus is the
literal triple), adjust the difficulty through the classifier (a
parameter, honoring the explicit difficulty), create the subtask rows
(ids from `gen`), assign them; when no assignment succeeded and files are
present, fail the task and push the vision error to the stream; otherwise
wait for all subtasks, aggregate, and mark the task completed with the
aggregated response. The embedding is the no-unhandled-exception path. -/
def process_task (st : CoordState) (o : Oracles) (now : Nat)
    (divideSubtasks divideContext : String → List String)
    (classify : String → Nat → TaskDifficulty → TaskDifficulty)
    (aggSubtasks aggConsensus aggContext :
      List SubtaskRow → String → String)
    (gen : Nat → String) (task_id prompt : String) (mode : TaskMode)
    (difficulty : TaskDifficulty) (files : List FileAttachment) :
    CoordState × List Event :=
  let st := st.update_task_status now task_id .processing none
  let subtask_prompts :=
    match mode with
    | .subtasks => divideSubtasks prompt
    | .consensus => [prompt, prompt, prompt]
    | .context => divideContext prompt
  let adjusted_difficulty := classify prompt subtask_prompts.length
    difficulty
  let subs := subtask_prompts.enum.map fun p =>
    ({ id := gen p.1, task_id := task_id, prompt := p.2 } : SubtaskRow)
  let st := { st with subtasks := st.subtasks ++ subs.map fun s => (s.id, s) }
  let ar := assign_subtasks o now adjusted_difficulty files subs st
  let assignments := ar.2.2
  if assignments = [] ∧ files ≠ [] then
    let st := ar.1.update_task_status now task_id .failed none
    let st := { st with streams :=
      (st.streams.complete_stream task_id none (some visionFailMessage)).2 }
    (st, ar.2.1)
  else
    let wait_timeout := get_timeout_for_difficulty adjusted_difficulty
    let w := wait_for_completion ar.1 o now subs adjusted_difficulty
      assignments wait_timeout
    (process_task_finalize w.1 now task_id prompt mode aggSubtasks
      aggConsensus aggContext, ar.2.1 ++ w.2)

/-- `create_task` (lines 76-206) composed with its background
`_process_task`: run the file prelude, classify when no difficulty is
given (external classifier, a parameter), insert the task row (pending),
create the stream session when streaming, and process. -/
def create_task (st : CoordState) (o : Oracles) (now : Nat)
    (processPdfs : List FileAttachment → String → String)
    (classifyAsync : String → TaskDifficulty)
    (divideSubtasks divideContext : String → List String)
    (classify : String → Nat → TaskDifficulty → TaskDifficulty)
    (aggSubtasks aggConsensus aggContext :
      List SubtaskRow → String → String)
    (gen : Nat → String) (task_id user_id prompt : String)
    (files : List FileAttachment) (mode : TaskMode)
    (difficulty0 : Option TaskDifficulty) (enable_streaming : Bool) :
    CoordState × List Event :=
  let fp := create_task_files st.registry processPdfs prompt files
    difficulty0
  let processed_prompt := fp.1
  let vision_files := fp.2.1
  let difficulty := match fp.2.2 with
    | some d => d
    | none => classifyAsync processed_prompt
  let st := { st with tasks := st.tasks ++
    [(task_id, { id := task_id, user_id := user_id, mode := mode,
                 original_prompt := prompt, difficulty := difficulty,
                 has_files := files ≠ [] })] }
  let st := if enable_streaming then
      { st with streams := st.streams.create_stream task_id now }
    else st
  process_task st o now divideSubtasks divideContext classify aggSubtasks
    aggConsensus aggContext gen task_id processed_prompt mode difficulty
    vision_files

/-! ## Result, error and stream handlers (lines 846-1003) -/

/-- `TaskResultPayload`. -/
structure TaskResultPayload where
  subtask_id : String
  task_id : String
  encrypted_response : String
  execution_time_ms : Nat
deriving DecidableEq, Repr

/-- `TaskErrorPayload`. -/
structure TaskErrorPayload where
  subtask_id : String
  task_id : String
  error_code : String
  error_message : String
deriving DecidableEq, Repr

/-- `TaskStreamPayload`. -/
structure TaskStreamPayload where
  subtask_id : String
  task_id : String
  encrypted_chunk : String
  chunk_index : Nat
deriving DecidableEq, Repr

/-- `handle_task_result`: drop results from unknown nodes; a decryption
failure raises inside the `try` block, whose handler only logs — the state
is left untouched and nothing is emitted. On success: persist the
response, cache it, signal the waiter, unload the node, record a breaker
success, award the completion (and possibly fast) reputation points, and
complete the stream with the response. -/
def handle_task_result (st : CoordState) (o : Oracles) (now : Nat)
    (node_id : String) (payload : TaskResultPayload) :
    CoordState × List Event :=
  match st.registry.get_node node_id with
  | none => (st, [])
  | some node =>
      match o.decryptFromNode node.public_key payload.encrypted_response with
      | none => (st, [])
      | some response =>
          let st := st.complete_subtask now payload.subtask_id response
            payload.encrypted_response payload.execution_time_ms
          let st := { st with
            results := (payload.subtask_id, response) :: st.results }
          let st := if payload.subtask_id ∈ st.pending then
              { st with signaled := payload.subtask_id :: st.signaled }
            else st
          let st := { st with
            registry := st.registry.decrement_load node_id }
          let st := { st with
            breakers := st.breakers.record_success node_id now }
          let d := task_completed_delta payload.execution_time_ms
          let cur := reputationOf st.reputations node_id
          let st := { st with reputations :=
            (setRep st.reputations node_id (update_reputation cur d.1)) }
          let st := { st with streams :=
            (st.streams.complete_stream payload.task_id (some response)
              none).2 }
          (st, [Event.loadDec node_id, Event.cbSuccess node_id,
                Event.repEvent node_id d.1 d.2])

/-- `handle_task_error`: fail the subtask, signal the waiter, unload the
node, record a breaker failure, complete the stream with
`"code: message"`, and apply the failure reputation penalty. -/
def handle_task_error (st : CoordState) (now : Nat) (node_id : String)
    (payload : TaskErrorPayload) : CoordState × List Event :=
  let st := st.fail_subtask now payload.subtask_id .failed
  let st := if payload.subtask_id ∈ st.pending then
      { st with signaled := payload.subtask_id :: st.signaled }
    else st
  let st := { st with registry := st.registry.decrement_load node_id }
  let st := { st with breakers := st.breakers.record_failure node_id now }
  let st := { st with streams :=
    (st.streams.complete_stream payload.task_id none
      (some (payload.error_code ++ ": " ++ payload.error_message))).2 }
  let d := task_failed_delta payload.error_code
  let cur := reputationOf st.reputations node_id
  let st := { st with reputations :=
    (setRep st.reputations node_id (update_reputation cur d.1)) }
  (st, [Event.loadDec node_id, Event.cbFailure node_id,
        Event.repEvent node_id d.1 d.2])

/-- `handle_task_stream`: drop chunks from unknown nodes; a chunk that
fails to decrypt raises inside the `try` and is only logged; otherwise
push the decrypted chunk to the stream session (chunks without a session
are dropped with a warning). -/
def handle_task_stream (st : CoordState) (o : Oracles) (node_id : String)
    (payload : TaskStreamPayload) : CoordState :=
  match st.registry.get_node node_id with
  | none => st
  | some node =>
      match o.decryptFromNode node.public_key payload.encrypted_chunk with
      | none => st
      | some chunk =>
          { st with streams :=
            (st.streams.push_chunk payload.task_id chunk).2 }

/-! ## Derived definitions and concrete fixtures -/

/-- The final thresholding step of `calculate_node_tier`, factored out to
state its agreement with the specification's thresholds. -/
def sourceTierOfPoints (total : ℤ) : NodeTier :=
  if total ≥ 61 then .premium
  else if total ≥ 21 then .standard
  else .basic

/-- The `ConnectedNode(...)` constructor call in `handle_register` (lines
522-535): the capability fields are passed explicitly and the remaining
dataclass fields take their defaults — in particular `current_load = 0`
and `latency_ms = None`, with both timestamps defaulting to now. -/
def registerConnectedNode (node_id public_key model_name : String)
    (max_context : Nat) (vram_gb : ℚ) (gpu_name : String)
    (model_params : ℚ) (model_quantization : String)
    (tokens_per_second : ℚ) (node_tier : NodeTier)
    (supports_vision : Bool) (now : Nat) : ConnectedNode :=
  { node_id := node_id, public_key := public_key, model_name := model_name,
    max_context := max_context, vram_gb := vram_gb, connected_at := now,
    last_heartbeat := now, gpu_name := gpu_name,
    model_params := model_params,
    model_quantization := model_quantization,
    tokens_per_second := tokens_per_second, node_tier := node_tier,
    supports_vision := supports_vision }

/-- An interleaving of registry load updates for one node. -/
inductive LoadOp
  | inc
  | dec
deriving DecidableEq, Repr

/-- Apply a sequence of `increment_load` / `decrement_load` calls. -/
def applyLoadOps (r : NodeRegistry) (node_id : String) :
    List LoadOp → NodeRegistry
  | [] => r
  | .inc :: rest => applyLoadOps (r.increment_load node_id) node_id rest
  | .dec :: rest => applyLoadOps (r.decrement_load node_id) node_id rest

/-- A concrete connected node for counterexamples and witnesses. -/
def testNode (id : String) : ConnectedNode :=
  { node_id := id, public_key := "pk-" ++ id, model_name := "llama",
    max_context := 4096, vram_gb := 8, connected_at := 0,
    last_heartbeat := 0 }

/-- A common test state: one connected node, one streamed task with two
subtasks, fresh breakers and default reputations. -/
def fixtureState : CoordState :=
  { registry := ⟨[testNode "n1"]⟩,
    streams := { tasks := [("t1", { task_id := "t1", created_at := 0 })] },
    tasks := [("t1", { id := "t1", user_id := "u", mode := .subtasks,
                       original_prompt := "p",
                       difficulty := .simple })],
    subtasks := [("s1", { id := "s1", task_id := "t1", prompt := "p1" }),
                 ("s2", { id := "s2", task_id := "t1", prompt := "p2" })] }

/-- Oracles whose string-level decryption succeeds (returning the
ciphertext as plaintext) and whose sends succeed. -/
def okOracles : Oracles :=
  { rand := fun _ => 0, sendOk := fun _ _ => true,
    encryptForNode := fun _ p => p,
    decryptFromNode := fun _ c => some c,
    waitOutcome := fun _ _ => false }

/-- Oracles whose string-level decryption always fails (an AEAD tag
mismatch on every blob). -/
def failOracles : Oracles :=
  { rand := fun _ => 0, sendOk := fun _ _ => true,
    encryptForNode := fun _ p => p,
    decryptFromNode := fun _ _ => none,
    waitOutcome := fun _ _ => false }

/-- A TASK_RESULT for the first subtask. -/
def resultPayload1 : TaskResultPayload :=
  { subtask_id := "s1", task_id := "t1", encrypted_response := "r1",
    execution_time_ms := 100 }

/-- A TASK_RESULT for the second subtask of the same task. -/
def resultPayload2 : TaskResultPayload :=
  { subtask_id := "s2", task_id := "t1", encrypted_response := "r2",
    execution_time_ms := 100 }

/-- A state with two connected nodes and one pending subtask assigned to
node n1, for exercising the timeout/reassignment path. -/
def c9State : CoordState :=
  { registry := ⟨[testNode "n1", testNode "n2"]⟩,
    pending := ["s1"],
    subtasks := [("s1", { id := "s1", task_id := "t1", prompt := "p1" })] }

/-- A concrete image attachment. -/
def c2Image : FileAttachment :=
  { filename := "foto.png", mime_type := "image/png",
    content_base64 := "AAAA", size_bytes := 4 }

/-- A state whose only connected node has no vision support. -/
def c2NoVisState : CoordState :=
  { registry := ⟨[testNode "n1"]⟩ }

/-- A state with a persisted task row and a live stream session but only
a non-vision node connected. -/
def c2VisState : CoordState :=
  { registry := ⟨[testNode "n1"]⟩,
    streams := { tasks := [("t1", { task_id := "t1", created_at := 0 })] },
    tasks := [("t1", { id := "t1", user_id := "u", mode := .subtasks,
                       original_prompt := "p",
                       difficulty := .advanced })] }

/-- A task whose two subtasks ended mixed: one completed with a response,
one timed out. -/
def mixedOutcomeState : CoordState :=
  { tasks := [("t1", { id := "t1", user_id := "u", mode := .subtasks,
                       original_prompt := "p", difficulty := .simple,
                       status := .processing })],
    subtasks := [("s1", { id := "s1", task_id := "t1", prompt := "p1",
                          response := some "A", status := .completed }),
                 ("s2", { id := "s2", task_id := "t1", prompt := "p2",
                          status := .timeout })] }

/-- A task none of whose subtasks completed: one failed, one timed out. -/
def noneOutcomeState : CoordState :=
  { tasks := [("t2", { id := "t2", user_id := "u", mode := .subtasks,
                       original_prompt := "p", difficulty := .simple,
                       status := .processing })],
    subtasks := [("s3", { id := "s3", task_id := "t2", prompt := "p3",
                          status := .failed }),
                 ("s4", { id := "s4", task_id := "t2", prompt := "p4",
                          status := .timeout })] }

/-- A mode aggregator that reports how many completed rows it was run
over. -/
def countingAggregator : List SubtaskRow → String → String :=
  fun rows _ => toString rows.length

/-! ## Helper lemmas -/

/-- The tier computed by the source equals the specification's bucket sum
pushed through the specification's thresholds. -/
lemma calculate_node_tier_eq_spec (v p t : ℚ) :
    calculate_node_tier v p t = specTierOfPoints (specTierPoints v p t) := by
  have hter : calculate_node_tier v p t =
      sourceTierOfPoints
        (0 + specVramPoints v + specParamPoints p + specSpeedPoints t) := rfl
  rw [hter, zero_add]
  show sourceTierOfPoints (specTierPoints v p t) =
    specTierOfPoints (specTierPoints v p t)
  generalize specTierPoints v p t = x
  unfold sourceTierOfPoints specTierOfPoints
  split_ifs <;> first | rfl | omega

/-- An availability check that answers `true` leaves the breaker in a
non-open state. -/
lemma is_available_true_not_opened (b : NodeCircuitBreaker) (now : Nat)
    (h : (b.is_available now).1 = true) :
    (b.is_available now).2.state ≠ .opened := by
  cases hb : b.state with
  | closed => simp [NodeCircuitBreaker.is_available, hb]
  | halfOpen => simp [NodeCircuitBreaker.is_available, hb]
  | opened =>
      cases hlf : b.last_failure with
      | none => simp [NodeCircuitBreaker.is_available, hb, hlf] at h
      | some tt =>
          simp only [NodeCircuitBreaker.is_available, hb, hlf,
            reduceCtorEq, if_false, if_neg, ite_false] at h ⊢
          split_ifs at h ⊢ <;> simp_all

/-- An availability check never moves a breaker into the open state. -/
lemma is_available_preserves_not_opened (b : NodeCircuitBreaker) (now : Nat)
    (h : b.state ≠ .opened) :
    (b.is_available now).2.state ≠ .opened := by
  cases hb : b.state with
  | closed => simp [NodeCircuitBreaker.is_available, hb]
  | halfOpen => simp [NodeCircuitBreaker.is_available, hb]
  | opened => exact absurd hb h

/-- Recording a failure always increments the failure count by one. -/
lemma record_failure_count (b : NodeCircuitBreaker) (t : Nat) :
    (b.record_failure t).failure_count = b.failure_count + 1 := by
  unfold NodeCircuitBreaker.record_failure
  dsimp only
  split_ifs <;> rfl

/-- Recording a failure opens the breaker once the count reaches the
threshold. -/
lemma record_failure_opened (b : NodeCircuitBreaker) (t : Nat)
    (h : b.failure_count + 1 ≥ CIRCUIT_BREAKER_FAILURE_THRESHOLD) :
    (b.record_failure t).state = .opened := by
  unfold NodeCircuitBreaker.record_failure
  rw [if_pos h]

/-- A success recorded outside `half_open` with a streak still below three
only bumps the streak and the timestamp. -/
lemma record_success_closed_step (b : NodeCircuitBreaker) (t : Nat)
    (hst : b.state = .closed) (hsc : b.success_count + 1 < 3) :
    b.record_success t =
      { b with success_count := b.success_count + 1,
               last_success := some t } := by
  unfold NodeCircuitBreaker.record_success
  dsimp only
  rw [if_neg (by simp [hst]), if_neg (by rintro ⟨h3, -⟩; omega)]

/-- The third consecutive success in the closed state heals one failure
and resets the streak. -/
lemma record_success_closed_third (b : NodeCircuitBreaker) (t : Nat)
    (hst : b.state = .closed) (hsc : b.success_count + 1 ≥ 3)
    (hfc : 0 < b.failure_count) :
    b.record_success t =
      { b with failure_count := b.failure_count - 1, success_count := 0,
               last_success := some t } := by
  unfold NodeCircuitBreaker.record_success
  dsimp only
  rw [if_neg (by simp [hst]), if_pos ⟨hsc, hfc⟩]

/-! ## Claim theorems -/

/-- Claim C8: tier is a pure function of `(vram_gb, model_params,
tokens_per_second)`; the point total is the sum of the three buckets, the
tier is Premium iff the total is at least 61, Standard iff it lies in
`[21, 60]` and Basic otherwise; `(24, 70, 50)` scores 100 and is Premium
while `(8, 7, 10)` scores 35 and is Standard. -/
theorem c8_tier_scoring :
    (∀ v p t : ℚ, calculate_node_tier v p t =
        specTierOfPoints (specTierPoints v p t)) ∧
    (∀ total : ℤ,
        (specTierOfPoints total = .premium ↔ total ≥ 61) ∧
        (specTierOfPoints total = .standard ↔ 21 ≤ total ∧ total ≤ 60) ∧
        (specTierOfPoints total = .basic ↔ total < 21)) ∧
    specTierPoints 24 70 50 = 100 ∧
    calculate_node_tier 24 70 50 = .premium ∧
    specTierPoints 8 7 10 = 35 ∧
    calculate_node_tier 8 7 10 = .standard := by
  refine ⟨calculate_node_tier_eq_spec, ?_, by decide, by decide, by decide,
    by decide⟩
  intro total
  unfold specTierOfPoints
  refine ⟨?_, ?_, ?_⟩ <;> split_ifs <;> simp_all <;> omega

/-- Claim C7: the circuit breaker starts closed; three recorded failures
open it from any state; an availability check on an open breaker more
than five minutes after the last failure moves it to half-open and admits
it; one success in half-open closes it and zeroes the failure count;
three consecutive successes in the closed state lower the failure count
by one; and a breaker is unavailable only when open. -/
theorem c7_circuit_breaker_states :
    (({} : NodeCircuitBreaker).state = .closed) ∧
    (∀ (b : NodeCircuitBreaker) (t1 t2 t3 : Nat),
        (((b.record_failure t1).record_failure t2).record_failure t3).state
          = .opened) ∧
    (∀ (b : NodeCircuitBreaker) (t now : Nat),
        b.state = .opened → b.last_failure = some t →
        now - t > CIRCUIT_BREAKER_RECOVERY_TIMEOUT →
        b.is_available now = (true, { b with state := .halfOpen })) ∧
    (∀ (b : NodeCircuitBreaker) (now : Nat),
        b.state = .halfOpen →
        (b.record_success now).state = .closed ∧
        (b.record_success now).failure_count = 0) ∧
    (∀ (b : NodeCircuitBreaker) (t1 t2 t3 : Nat),
        b.state = .closed → b.success_count = 0 → 0 < b.failure_count →
        (((b.record_success t1).record_success t2).record_success t3).state
            = .closed ∧
        (((b.record_success t1).record_success t2).record_success
            t3).failure_count = b.failure_count - 1) ∧
    (∀ (b : NodeCircuitBreaker) (now : Nat),
        (b.is_available now).1 = false → b.state = .opened) := by
  refine ⟨rfl, ?_, ?_, ?_, ?_, ?_⟩
  · intro b t1 t2 t3
    apply record_failure_opened
    rw [record_failure_count, record_failure_count]
    unfold CIRCUIT_BREAKER_FAILURE_THRESHOLD
    omega
  · intro b t now h1 h2 h3
    unfold NodeCircuitBreaker.is_available
    rw [h1, h2]
    simp [h3]
  · intro b now h
    unfold NodeCircuitBreaker.record_success
    dsimp only
    rw [if_pos]
    · exact ⟨rfl, rfl⟩
    · simpa using h
  · intro b t1 t2 t3 hst hsc hfc
    have h1 := record_success_closed_step b t1 hst (by omega)
    have hst1 : (b.record_success t1).state = .closed := by
      rw [h1]; exact hst
    have hsc1 : (b.record_success t1).success_count = 1 := by
      rw [h1]; simp [hsc]
    have hfc1 : (b.record_success t1).failure_count = b.failure_count := by
      rw [h1]
    have h2 := record_success_closed_step (b.record_success t1) t2 hst1
      (by rw [hsc1]; omega)
    have hst2 : ((b.record_success t1).record_success t2).state = .closed := by
      rw [h2]; exact hst1
    have hsc2 : ((b.record_success t1).record_success t2).success_count
        = 2 := by
      rw [h2]; dsimp only; rw [hsc1]
    have hfc2 : ((b.record_success t1).record_success t2).failure_count
        = b.failure_count := by
      rw [h2]; dsimp only; exact hfc1
    have h3 := record_success_closed_third
      ((b.record_success t1).record_success t2) t3 hst2
      (by rw [hsc2]) (by rw [hfc2]; exact hfc)
    refine ⟨?_, ?_⟩
    · rw [h3]; dsimp only; exact hst2
    · rw [h3]; dsimp only; rw [hfc2]
  · intro b now h
    cases hb : b.state with
    | closed => simp [NodeCircuitBreaker.is_available, hb] at h
    | halfOpen => simp [NodeCircuitBreaker.is_available, hb] at h
    | opened => rfl

/-- Witness for C7: the machine's transitions evaluated on concrete
breakers. -/
theorem c7_circuit_breaker_states_witness :
    (((({} : NodeCircuitBreaker).record_failure 1).record_failure
        2).record_failure 3).state = BreakerState.opened ∧
    (({ failure_count := 3, last_failure := some 0, state := .opened } :
        NodeCircuitBreaker).is_available 301 =
      (true, { failure_count := 3, last_failure := some 0,
               state := .halfOpen })) ∧
    ((({ failure_count := 3, state := .halfOpen } :
        NodeCircuitBreaker).record_success 7).state = .closed ∧
      (({ failure_count := 3, state := .halfOpen } :
        NodeCircuitBreaker).record_success 7).failure_count = 0) ∧
    ((((({ failure_count := 2 } : NodeCircuitBreaker).record_success
        1).record_success 2).record_success 3).state = .closed ∧
      (((({ failure_count := 2 } : NodeCircuitBreaker).record_success
        1).record_success 2).record_success 3).failure_count = 1) :=
  ⟨c7_circuit_breaker_states.2.1 {} 1 2 3,
   c7_circuit_breaker_states.2.2.1 _ 0 301 rfl rfl (by decide),
   c7_circuit_breaker_states.2.2.2.1 _ 7 rfl,
   c7_circuit_breaker_states.2.2.2.2.1 _ 1 2 3 rfl rfl (by decide)⟩

/-! ## Load accounting (for claim C10) -/

/-- Mapping an id-preserving modification over the registry rewrites the
node a lookup finds. -/
lemma get_node_modify (nodes : List ConnectedNode) (id : String)
    (f : ConnectedNode → ConnectedNode)
    (hf : ∀ n, (f n).node_id = n.node_id) :
    (NodeRegistry.mk (nodes.map fun n =>
        if n.node_id = id then f n else n)).get_node id
      = ((NodeRegistry.mk nodes).get_node id).map f := by
  induction nodes with
  | nil => rfl
  | cons n rest ih =>
      by_cases h : n.node_id = id
      · simp [NodeRegistry.get_node, List.find?, h, hf n]
      · simpa [NodeRegistry.get_node, List.find?, h] using ih

/-- `increment_load` adds one to the found node's load. -/
lemma get_node_increment (r : NodeRegistry) (id : String) :
    (r.increment_load id).get_node id = (r.get_node id).map
      fun n => { n with current_load := n.current_load + 1 } :=
  get_node_modify r.nodes id _ (fun _ => rfl)

/-- `decrement_load` clamps the found node's load at zero. -/
lemma get_node_decrement (r : NodeRegistry) (id : String) :
    (r.decrement_load id).get_node id = (r.get_node id).map
      fun n => { n with current_load := max 0 (n.current_load - 1) } :=
  get_node_modify r.nodes id _ (fun _ => rfl)

/-- The load after an increment. -/
lemma loadOf_increment (r : NodeRegistry) (id : String) :
    (r.increment_load id).loadOf id =
      if (r.get_node id).isSome then r.loadOf id + 1 else 0 := by
  unfold NodeRegistry.loadOf
  rw [get_node_increment]
  cases r.get_node id <;> simp

/-- The load after a decrement is the clamped decrement of the load
(trivially so for an unknown id, whose load reads as zero). -/
lemma loadOf_decrement (r : NodeRegistry) (id : String) :
    (r.decrement_load id).loadOf id = max 0 (r.loadOf id - 1) := by
  unfold NodeRegistry.loadOf
  rw [get_node_decrement]
  cases r.get_node id <;> simp

/-- Load updates do not change whether the id resolves. -/
lemma isSome_increment (r : NodeRegistry) (id : String) :
    ((r.increment_load id).get_node id).isSome = (r.get_node id).isSome := by
  rw [get_node_increment]; cases r.get_node id <;> rfl

lemma isSome_decrement (r : NodeRegistry) (id : String) :
    ((r.decrement_load id).get_node id).isSome = (r.get_node id).isSome := by
  rw [get_node_decrement]; cases r.get_node id <;> rfl

/-- Loads never go negative under any interleaving. -/
lemma applyLoadOps_nonneg (id : String) :
    ∀ (ops : List LoadOp) (r : NodeRegistry),
      0 ≤ r.loadOf id → 0 ≤ (applyLoadOps r id ops).loadOf id := by
  intro ops
  induction ops with
  | nil => intro r h; exact h
  | cons op rest ih =>
      intro r h
      cases op with
      | inc =>
          apply ih
          rw [loadOf_increment]
          split_ifs <;> omega
      | dec =>
          apply ih
          rw [loadOf_decrement]
          exact le_max_left _ _

/-- Splitting an op sequence. -/
lemma applyLoadOps_append (id : String) (a b : List LoadOp) :
    ∀ r, applyLoadOps r id (a ++ b) = applyLoadOps (applyLoadOps r id a) id b := by
  induction a with
  | nil => intro r; rfl
  | cons op rest ih =>
      intro r
      cases op <;> simp only [List.cons_append, applyLoadOps] <;> exact ih _

/-- `n` increments on a resolvable id add `n` to the load. -/
lemma applyLoadOps_replicate_inc (id : String) :
    ∀ (k : Nat) (r : NodeRegistry), (r.get_node id).isSome →
      (applyLoadOps r id (List.replicate k .inc)).loadOf id
          = r.loadOf id + k ∧
        ((applyLoadOps r id (List.replicate k .inc)).get_node id).isSome := by
  intro k
  induction k with
  | zero => intro r h; exact ⟨by simp [applyLoadOps], h⟩
  | succ k ih =>
      intro r h
      simp only [List.replicate_succ, applyLoadOps]
      have h' : ((r.increment_load id).get_node id).isSome := by
        rw [isSome_increment]; exact h
      obtain ⟨h1, h2⟩ := ih (r.increment_load id) h'
      refine ⟨?_, h2⟩
      rw [h1, loadOf_increment, if_pos h]
      push_cast
      ring

/-- Clamped decrements compose. -/
lemma max_zero_sub_succ (l : ℤ) (m : ℕ) :
    max 0 (max 0 (l - 1) - (m : ℤ)) = max 0 (l - ((m : ℤ) + 1)) := by
  rcases le_total l 1 with h | h
  · rw [max_eq_left (by omega : l - 1 ≤ 0)]
    rw [max_eq_left (by omega : (0 : ℤ) - m ≤ 0),
        max_eq_left (by omega : l - ((m : ℤ) + 1) ≤ 0)]
  · rw [max_eq_right (by omega : (0 : ℤ) ≤ l - 1)]
    congr 1
    ring

/-- `m` decrements clamp the nonnegative load at zero after subtracting
`m`. -/
lemma applyLoadOps_replicate_dec (id : String) :
    ∀ (m : Nat) (r : NodeRegistry), 0 ≤ r.loadOf id →
      (applyLoadOps r id (List.replicate m .dec)).loadOf id
        = max 0 (r.loadOf id - m) := by
  intro m
  induction m with
  | zero =>
      intro r h
      simp only [List.replicate, applyLoadOps, Nat.cast_zero, sub_zero]
      exact (max_eq_right h).symm
  | succ m ih =>
      intro r h
      simp only [List.replicate_succ, applyLoadOps]
      rw [ih (r.decrement_load id)
            (by rw [loadOf_decrement]; exact le_max_left _ _),
          loadOf_decrement]
      push_cast
      exact max_zero_sub_succ (r.loadOf id) m

/-! ## Selection lemmas (for claim C6) -/

/-- Both nodes drawn by a `random.sample(candidates, 2)` lie in the
candidate pool. -/
lemma sampleTwo_mem (rand : Nat → Nat) (k : Nat) (l : List ConnectedNode)
    (h : 2 ≤ l.length) :
    (sampleTwo rand k l).1 ∈ l ∧ (sampleTwo rand k l).2 ∈ l := by
  unfold sampleTwo
  dsimp only
  constructor
  · have hi : rand k % l.length < l.length := Nat.mod_lt _ (by omega)
    cases hg : l.get? (rand k % l.length) with
    | none => rw [List.get?_eq_none] at hg; omega
    | some a => simp only [hg, Option.getD_some]; exact List.get?_mem hg
  · have hlen : (l.eraseIdx (rand k % l.length)).length = l.length - 1 :=
      List.length_eraseIdx_of_lt (Nat.mod_lt _ (by omega))
    have hj : rand (k + 1) % (l.eraseIdx (rand k % l.length)).length <
        (l.eraseIdx (rand k % l.length)).length := by
      apply Nat.mod_lt
      omega
    cases hg : (l.eraseIdx (rand k % l.length)).get?
        (rand (k + 1) % (l.eraseIdx (rand k % l.length)).length) with
    | none => rw [List.get?_eq_none] at hg; omega
    | some a =>
        simp only [hg, Option.getD_some]
        exact List.eraseIdx_subset _ _ (List.get?_mem hg)

/-- Unfolding `popLast` on a successful pop. -/
lemma popLast_eq_some (l : List ConnectedNode) (x : ConnectedNode)
    (r : List ConnectedNode) (h : popLast l = some (x, r)) :
    x ∈ l ∧ r = l.dropLast := by
  unfold popLast at h
  cases hg : l.getLast? with
  | none => rw [hg] at h; simp at h
  | some a =>
      rw [hg] at h
      simp only [Option.some.injEq, Prod.mk.injEq] at h
      obtain ⟨h1, h2⟩ := h
      subst h1 h2
      exact ⟨List.mem_of_mem_getLast? hg, rfl⟩

/-- Every node the P2C loop returns comes from its candidate pool. -/
lemma p2cLoop_subset (reps : List (String × ℚ)) (max_rep : ℚ)
    (difficulty : TaskDifficulty) (rand : Nat → Nat) :
    ∀ (fuel randk : Nat) (candidates : List ConnectedNode),
      ∀ x ∈ p2cLoop reps max_rep difficulty rand fuel randk candidates,
        x ∈ candidates := by
  intro fuel
  induction fuel with
  | zero =>
      intro randk c x hx
      simp [p2cLoop] at hx
  | succ fuel ih =>
      intro randk candidates x hx
      match candidates with
      | [] => simp [p2cLoop] at hx
      | c :: rest =>
          rw [p2cLoop] at hx
          cases hp : popLast (c :: rest) with
          | none => rw [hp] at hx; simp at hx
          | some pr =>
              obtain ⟨last, lrest⟩ := pr
              obtain ⟨hmem, hdrop⟩ := popLast_eq_some _ _ _ hp
              rw [hp] at hx
              dsimp only at hx
              by_cases hlen : (c :: rest).length = 1
              · rw [if_pos hlen] at hx
                rcases List.mem_cons.mp hx with hh | ht
                · subst hh; exact hmem
                · have := ih randk lrest x ht
                  rw [hdrop] at this
                  exact List.dropLast_subset _ this
              · rw [if_neg hlen] at hx
                have h2 : 2 ≤ (c :: rest).length := by
                  have : 0 < (c :: rest).length := by simp
                  omega
                obtain ⟨hm1, hm2⟩ := sampleTwo_mem rand randk (c :: rest) h2
                rcases List.mem_cons.mp hx with hh | ht
                · subst hh
                  split_ifs
                  · exact hm2
                  · exact hm1
                · have := ih (randk + 4) _ x ht
                  exact List.erase_subset _ _ this
          simp

/-- Boolean key comparison of distinct strings. -/
lemma beq_false_of_ne (a b : String) (h : ¬a = b) : (a == b) = false := by
  simp [h]

/-- Replacing a key's pairs rewrites what a lookup of that key finds. -/
lemma lookup_replace_self (l : List (String × NodeCircuitBreaker))
    (id : String) (b : NodeCircuitBreaker) (h : (l.lookup id).isSome) :
    (l.map fun p => if p.1 = id then (id, b) else p).lookup id = some b := by
  induction l with
  | nil => simp [List.lookup] at h
  | cons p rest ih =>
      rw [List.map_cons]
      by_cases hp : p.1 = id
      · rw [if_pos hp, List.lookup]
        simp
      · rw [if_neg hp, List.lookup]
        rw [List.lookup] at h
        have hb : (id == p.1) = false :=
          beq_false_of_ne _ _ (fun hc => hp hc.symm)
        rw [hb] at h ⊢
        exact ih h

/-- Replacing one key's pairs leaves lookups of other keys unchanged. -/
lemma lookup_replace_ne (l : List (String × NodeCircuitBreaker))
    (id id' : String) (b : NodeCircuitBreaker) (h : ¬id' = id) :
    (l.map fun p => if p.1 = id then (id, b) else p).lookup id'
      = l.lookup id' := by
  induction l with
  | nil => rfl
  | cons p rest ih =>
      rw [List.map_cons]
      by_cases hp : p.1 = id
      · rw [if_pos hp, List.lookup, List.lookup]
        have h1 : (id' == id) = false := beq_false_of_ne _ _ h
        have h2 : (id' == p.1) = false := by rw [hp]; exact h1
        rw [h1, h2]
        exact ih
      · rw [if_neg hp, List.lookup, List.lookup]
        cases hb : (id' == p.1) with
        | false => exact ih
        | true => rfl

/-- `setBreaker` stores the breaker under its key. -/
lemma setBreaker_lookup_self (m : CircuitBreakerManager) (id : String)
    (b : NodeCircuitBreaker) :
    (m.setBreaker id b).breakers.lookup id = some b := by
  unfold CircuitBreakerManager.setBreaker
  dsimp only
  split_ifs with h
  · exact lookup_replace_self _ _ _ h
  · rw [List.lookup]
    simp

/-- `setBreaker` leaves other keys' breakers unchanged. -/
lemma setBreaker_lookup_ne (m : CircuitBreakerManager) (id id' : String)
    (b : NodeCircuitBreaker) (h : ¬id' = id) :
    (m.setBreaker id b).breakers.lookup id' = m.breakers.lookup id' := by
  unfold CircuitBreakerManager.setBreaker
  dsimp only
  split_ifs with hp
  · exact lookup_replace_ne _ _ _ _ h
  · rw [List.lookup, beq_false_of_ne _ _ h]

/-- A manager-level availability check that answers `true` leaves the
checked node's stored breaker in a non-open state. -/
lemma manager_available_stateOf (m : CircuitBreakerManager) (id : String)
    (now : Nat) (h : (m.is_available id now).1 = true) :
    (m.is_available id now).2.stateOf id ≠ .opened := by
  unfold CircuitBreakerManager.is_available at h ⊢
  cases hl : m.breakers.lookup id with
  | none =>
      dsimp only
      unfold CircuitBreakerManager.stateOf CircuitBreakerManager.get_or_create
      rw [hl]
      simp
  | some b =>
      rw [hl] at h
      dsimp only at h ⊢
      unfold CircuitBreakerManager.stateOf CircuitBreakerManager.get_or_create
      rw [setBreaker_lookup_self]
      simpa using is_available_true_not_opened b now h

/-- Manager-level availability checks never open any node's breaker. -/
lemma manager_available_preserves (m : CircuitBreakerManager)
    (id id' : String) (now : Nat) (h : m.stateOf id' ≠ .opened) :
    (m.is_available id now).2.stateOf id' ≠ .opened := by
  unfold CircuitBreakerManager.is_available
  cases hl : m.breakers.lookup id with
  | none => exact h
  | some b =>
      dsimp only
      unfold CircuitBreakerManager.stateOf CircuitBreakerManager.get_or_create
      by_cases hid : id' = id
      · subst hid
        rw [setBreaker_lookup_self]
        have hb : m.stateOf id' = b.state := by
          unfold CircuitBreakerManager.stateOf
            CircuitBreakerManager.get_or_create
          rw [hl]
          rfl
        rw [hb] at h
        simpa using is_available_preserves_not_opened b now h
      · rw [setBreaker_lookup_ne _ _ _ _ hid]
        exact h

/-- The availability filter of `select_nodes_v3` never opens a breaker. -/
lemma filterAvailableGo_preserves (r : NodeRegistry) (now : Nat)
    (exclude : List String) :
    ∀ (nodes : List ConnectedNode) (m : CircuitBreakerManager)
      (id : String), m.stateOf id ≠ .opened →
      ((filterAvailableGo r now exclude nodes m).2).stateOf id ≠ .opened := by
  intro nodes
  induction nodes with
  | nil =>
      intro m id h
      exact h
  | cons node rest ih =>
      intro m id h
      rw [filterAvailableGo]
      dsimp only
      split_ifs <;>
        first
          | exact ih m id h
          | exact ih (m.is_available node.node_id now).2 id
              (manager_available_preserves m node.node_id id now h)

/-- Every node the availability filter keeps came from the walked list,
is not excluded, passed the full-registry online check, and ends with a
breaker that is not open. -/
lemma filterAvailableGo_spec (r : NodeRegistry) (now : Nat)
    (exclude : List String) :
    ∀ (nodes : List ConnectedNode) (m : CircuitBreakerManager)
      (x : ConnectedNode),
      x ∈ (filterAvailableGo r now exclude nodes m).1 →
      x ∈ nodes ∧ x.node_id ∉ exclude ∧
      r.is_online x.node_id now = true ∧
      (filterAvailableGo r now exclude nodes m).2.stateOf x.node_id
        ≠ .opened := by
  intro nodes
  induction nodes with
  | nil =>
      intro m x hx
      simp [filterAvailableGo] at hx
  | cons node rest ih =>
      intro m x hx
      rw [filterAvailableGo] at hx ⊢
      dsimp only at hx ⊢
      by_cases h1 : node.node_id ∉ exclude
      · rw [if_pos h1] at hx ⊢
        by_cases h2 : r.is_online node.node_id now = true
        · rw [if_pos h2] at hx ⊢
          by_cases h3 : (m.is_available node.node_id now).1 = true
          · rw [if_pos h3] at hx ⊢
            dsimp only at hx ⊢
            rcases List.mem_cons.mp hx with hh | ht
            · subst hh
              refine ⟨List.mem_cons_self _ _, h1, h2, ?_⟩
              exact filterAvailableGo_preserves r now exclude rest _ _
                (manager_available_stateOf m _ now h3)
            · obtain ⟨ha, hb, hc, hd⟩ := ih _ x ht
              exact ⟨List.mem_cons_of_mem _ ha, hb, hc, hd⟩
          · rw [if_neg h3] at hx ⊢
            obtain ⟨ha, hb, hc, hd⟩ := ih _ x hx
            exact ⟨List.mem_cons_of_mem _ ha, hb, hc, hd⟩
        · rw [if_neg h2] at hx ⊢
          obtain ⟨ha, hb, hc, hd⟩ := ih _ x hx
          exact ⟨List.mem_cons_of_mem _ ha, hb, hc, hd⟩
      · rw [if_neg h1] at hx ⊢
        obtain ⟨ha, hb, hc, hd⟩ := ih _ x hx
        exact ⟨List.mem_cons_of_mem _ ha, hb, hc, hd⟩

/-- In a registry whose node ids are distinct (the Python dict invariant),
a lookup by a member's id finds that member. -/
lemma find_node_of_mem_nodup :
    ∀ (nodes : List ConnectedNode) (x : ConnectedNode), x ∈ nodes →
      (nodes.map ConnectedNode.node_id).Nodup →
      nodes.find? (fun n => n.node_id = x.node_id) = some x := by
  intro nodes
  induction nodes with
  | nil => intro x hx; simp at hx
  | cons n rest ih =>
      intro x hx hnd
      rw [List.map_cons, List.nodup_cons] at hnd
      rcases List.mem_cons.mp hx with hh | ht
      · subst hh
        rw [List.find?]
        simp
      · by_cases he : n.node_id = x.node_id
        · exfalso
          apply hnd.1
          rw [he]
          exact List.mem_map_of_mem ConnectedNode.node_id ht
        · rw [List.find?]
          have : (decide (n.node_id = x.node_id)) = false := by
            simp [he]
          rw [this]
          exact ih x ht hnd.2

/-- Claim C6: every node `select_nodes_v3` returns is not in the exclude
set, was online (less than 90 s since its last heartbeat) at selection
time, and its circuit breaker is not in the open state after the
filtering; and when no connected node passes the availability filter, the
empty list is returned. -/
theorem c6_selection_candidates (r : NodeRegistry) (now : Nat)
    (m : CircuitBreakerManager) (reps : List (String × ℚ))
    (rand : Nat → Nat) (difficulty : TaskDifficulty) (n : Nat)
    (exclude : List String)
    (hnd : (r.nodes.map ConnectedNode.node_id).Nodup) :
    (∀ x ∈ (r.select_nodes_v3 now m reps rand difficulty n exclude).1,
        x.node_id ∉ exclude ∧
        now - x.last_heartbeat < HEARTBEAT_TIMEOUT ∧
        (r.select_nodes_v3 now m reps rand difficulty n
          exclude).2.stateOf x.node_id ≠ .opened) ∧
    ((filterAvailable r now exclude m).1 = [] →
      (r.select_nodes_v3 now m reps rand difficulty n exclude).1 = []) := by
  constructor
  · intro x hx
    unfold NodeRegistry.select_nodes_v3 at hx ⊢
    dsimp only at hx ⊢
    by_cases he : (filterAvailable r now exclude m).1 = []
    · rw [if_pos he] at hx
      simp at hx
    · rw [if_neg he] at hx ⊢
      dsimp only at hx ⊢
      obtain ⟨hmem, hexc, honl, hst⟩ :=
        filterAvailableGo_spec r now exclude r.nodes m x
          (p2cLoop_subset reps _ difficulty rand _ 0 _ x hx)
      refine ⟨hexc, ?_, hst⟩
      unfold NodeRegistry.is_online NodeRegistry.get_node at honl
      rw [find_node_of_mem_nodup r.nodes x hmem hnd] at honl
      simpa using honl
  · intro he
    unfold NodeRegistry.select_nodes_v3
    dsimp only
    rw [if_pos he]

/-- Witness for C6: a single fresh online node passes the filter and is
selected; an empty registry yields the empty selection. -/
theorem c6_selection_candidates_witness :
    ((testNode "n1").node_id ∉ ([] : List String) ∧
      (0 : Nat) - (testNode "n1").last_heartbeat < HEARTBEAT_TIMEOUT ∧
      ((⟨[testNode "n1"]⟩ : NodeRegistry).select_nodes_v3 0 {} []
        (fun _ => 0) TaskDifficulty.simple 1
        []).2.stateOf (testNode "n1").node_id ≠ .opened) ∧
    ((⟨[]⟩ : NodeRegistry).select_nodes_v3 0 {} [] (fun _ => 0)
      TaskDifficulty.simple 1 []).1 = [] :=
  ⟨(c6_selection_candidates ⟨[testNode "n1"]⟩ 0 {} [] (fun _ => 0)
      TaskDifficulty.simple 1 [] (by simp)).1 (testNode "n1") (by decide),
   (c6_selection_candidates ⟨[]⟩ 0 {} [] (fun _ => 0)
      TaskDifficulty.simple 1 [] (by simp)).2 (by decide)⟩

/-- Claim C5: the crypto envelope round-trips: for every plaintext string
and every pair of X25519 keypairs, decrypting with the recipient's
keypair and the sender's public key the blob the sender sealed for the
recipient returns exactly the plaintext. The external primitives enter
through their contracts: Diffie-Hellman agreement of the two keypairs,
AEAD decrypt-of-encrypt identity, and base64/UTF-8 round trips. -/
theorem c5_envelope_roundtrip {Priv Pub Byt Blob : Type}
    (P : CryptoPrims Priv Pub Byt Blob) (A B : KeyPair Priv Pub)
    (m : String) (salt nonce : List Byt)
    (hsalt : salt.length = SALT_SIZE)
    (hnonce : nonce.length = NONCE_SIZE)
    (hdh : P.exchange B.private_key A.public_key
      = P.exchange A.private_key B.public_key)
    (haead : ∀ (key n pt : List Byt),
      P.aesgcm_decrypt key n (P.aesgcm_encrypt key n pt) = some pt)
    (hb64 : ∀ bs : List Byt, P.b64decode (P.b64encode bs) = bs)
    (hutf8 : ∀ s : String, P.utf8Decode (P.utf8Encode s) = some s) :
    decrypt_from_sender P B A.public_key
      (encrypt_for_recipient P A B.public_key m salt nonce) = some m := by
  unfold decrypt_from_sender encrypt_for_recipient derive_shared_key
    encrypt_data decrypt_data
  dsimp only
  rw [hb64, List.take_left' hsalt, List.drop_left' hsalt,
    List.take_left' hnonce, List.drop_left' hnonce, hdh, haead]
  rw [Option.some_bind, hutf8]

/-- Witness for C5: the round trip evaluated on toy primitives — numeric
keys, character bytes, identity codecs, an AEAD that satisfies the
decrypt-of-encrypt identity — and the plaintext "hola". -/
theorem c5_envelope_roundtrip_witness :
    decrypt_from_sender
      ({ exchange := fun a b => [Char.ofNat (a * b % 256)],
         hkdf := fun ikm s _ => ikm ++ s,
         infoDefault := "clubai-e2e".data,
         aesgcm_encrypt := fun _ _ pt => pt,
         aesgcm_decrypt := fun _ _ c => some c,
         b64encode := id, b64decode := id,
         utf8Encode := String.data,
         utf8Decode := fun bs => some (String.mk bs) } :
        CryptoPrims Nat Nat Char (List Char))
      ⟨5, 5⟩ 3
      (encrypt_for_recipient
        ({ exchange := fun a b => [Char.ofNat (a * b % 256)],
           hkdf := fun ikm s _ => ikm ++ s,
           infoDefault := "clubai-e2e".data,
           aesgcm_encrypt := fun _ _ pt => pt,
           aesgcm_decrypt := fun _ _ c => some c,
           b64encode := id, b64decode := id,
           utf8Encode := String.data,
           utf8Decode := fun bs => some (String.mk bs) } :
          CryptoPrims Nat Nat Char (List Char))
        ⟨3, 3⟩ 5 "hola" (List.replicate 16 'S') (List.replicate 12 'N'))
      = some "hola" :=
  c5_envelope_roundtrip _ ⟨3, 3⟩ ⟨5, 5⟩ "hola" _ _
    (by decide) (by decide) rfl (fun _ _ _ => rfl) (fun _ => rfl)
    (fun s => by cases s; rfl)

/-- Generic form of the key-replacement lookup lemma. -/
lemma lookup_replace_self_gen {β : Type} (l : List (String × β))
    (id : String) (b : β) (h : (l.lookup id).isSome) :
    (l.map fun p => if p.1 = id then (id, b) else p).lookup id = some b := by
  induction l with
  | nil => simp [List.lookup] at h
  | cons p rest ih =>
      rw [List.map_cons]
      by_cases hp : p.1 = id
      · rw [if_pos hp, List.lookup]
        simp
      · rw [if_neg hp, List.lookup]
        rw [List.lookup] at h
        have hb : (id == p.1) = false :=
          beq_false_of_ne _ _ (fun hc => hp hc.symm)
        rw [hb] at h ⊢
        exact ih h

/-- Claim C3 counterexample: a streamed task with two subtasks receives
two TASK_RESULTs; each `handle_task_result` calls `complete_stream`
unconditionally, so the session's queue ends with two `done` sentinels —
refuting "at most one terminal sentinel is enqueued, and it is last". -/
theorem c3_counterexample_two_done_sentinels :
    (((handle_task_result (handle_task_result fixtureState okOracles 10
          "n1" resultPayload1).1 okOracles 20 "n1"
          resultPayload2).1.streams.tasks.lookup "t1").map
        StreamingTask.queue)
      = some [{ type := "done", content := some "r1" },
              { type := "done", content := some "r2" }] ∧
    (({ type := "done", content := some "r1" } : StreamItem).isSentinel
      = true) ∧
    (({ type := "done", content := some "r2" } : StreamItem).isSentinel
      = true) := by
  refine ⟨?_, by decide, by decide⟩
  rfl

/-- Claim C3 (amended): each `complete_stream` call on an existing session
appends exactly one item — a terminal sentinel — to the session queue and
marks the session complete. Hence a streamed task whose single terminal
handling is the last enqueue operation observes exactly one sentinel, as
the final item; but each further TASK_RESULT/TASK_ERROR handling appends
another sentinel (see the counterexample), and chunks pushed after
completion are still appended. -/
theorem c3_complete_stream_amended (m : StreamingManager)
    (task_id : String) (s : StreamingTask)
    (final_response error : Option String)
    (h : m.tasks.lookup task_id = some s) :
    (m.complete_stream task_id final_response error).1 = true ∧
    ∃ item : StreamItem, item.isSentinel = true ∧
      (m.complete_stream task_id final_response error).2.tasks.lookup
          task_id
        = some { s with queue := s.queue ++ [item], is_complete := true,
                        final_response := final_response,
                        error := error } := by
  unfold StreamingManager.complete_stream
  rw [h]
  dsimp only
  refine ⟨rfl,
    ⟨if strTruthy error then { type := "error", content := error }
      else { type := "done", content := final_response }, ?_, ?_⟩⟩
  · cases he : strTruthy error <;> simp [he, StreamItem.isSentinel]
  · unfold StreamingManager.setTask
    dsimp only
    have hs : (List.lookup task_id m.tasks).isSome = true := by
      rw [h]
      rfl
    rw [lookup_replace_self_gen _ _ _ hs]

/-- Witness for C3 (amended) on a concrete session. -/
theorem c3_complete_stream_amended_witness :
    (({ tasks := [("t1", { task_id := "t1", created_at := 0 })] } :
        StreamingManager).complete_stream "t1" (some "resp") none).1
      = true ∧
    ∃ item : StreamItem, item.isSentinel = true ∧
      (({ tasks := [("t1", { task_id := "t1", created_at := 0 })] } :
          StreamingManager).complete_stream "t1" (some "resp")
          none).2.tasks.lookup "t1"
        = some { task_id := "t1", created_at := 0,
                 queue := [] ++ [item], is_complete := true,
                 final_response := some "resp", error := none } :=
  c3_complete_stream_amended
    { tasks := [("t1", { task_id := "t1", created_at := 0 })] } "t1"
    { task_id := "t1", created_at := 0 } (some "resp") none rfl

/-- Claim C4 counterexample: a TASK_RESULT whose payload fails to decrypt
is swallowed by the handler's exception branch — the state is returned
unchanged and no event is emitted: no CircuitBreaker failure, no
reputation event, and the subtask is not failed. -/
theorem c4_counterexample_decrypt_failure_unpenalized :
    handle_task_result fixtureState failOracles 10 "n1" resultPayload1
      = (fixtureState, []) ∧
    fixtureState.breakers.stateOf "n1" = .closed ∧
    (fixtureState.breakers.get_or_create "n1").failure_count = 0 ∧
    fixtureState.subtaskStatus "s1" = some .pending := by
  exact ⟨rfl, rfl, rfl, rfl⟩

/-- Claim C4 (amended): when the encrypted response of a TASK_RESULT from
a known node fails to decrypt, the handler catches the error and only
logs: the coordinator state is unchanged (no breaker failure, no
reputation event, subtask untouched) and no external action is taken, so
nothing surfaces to the client and the task continues with its other
subtasks. -/
theorem c4_decrypt_failure_amended (st : CoordState) (o : Oracles)
    (now : Nat) (node_id : String) (payload : TaskResultPayload)
    (node : ConnectedNode)
    (hn : st.registry.get_node node_id = some node)
    (hd : o.decryptFromNode node.public_key payload.encrypted_response
      = none) :
    handle_task_result st o now node_id payload = (st, []) := by
  unfold handle_task_result
  rw [hn]
  dsimp only
  rw [hd]

/-- Witness for C4 (amended) on the concrete fixture. -/
theorem c4_decrypt_failure_amended_witness :
    handle_task_result fixtureState failOracles 10 "n1" resultPayload1
      = (fixtureState, []) :=
  c4_decrypt_failure_amended fixtureState failOracles 10 "n1"
    resultPayload1 (testNode "n1") rfl rfl

/-! ## Update lemmas for the orchestrator state (claims C2, C9) -/

/-- Updating the entry under one key rewrites its lookup. -/
lemma lookup_map_entry_self {β : Type} (l : List (String × β)) (k : String)
    (g : β → β) :
    (l.map fun p => if p.1 = k then (p.1, g p.2) else p).lookup k
      = (l.lookup k).map g := by
  induction l with
  | nil => rfl
  | cons p rest ih =>
      rw [List.map_cons]
      by_cases hp : p.1 = k
      · rw [if_pos hp, List.lookup, List.lookup]
        have hb : (k == p.1) = true := by simp [hp]
        rw [hb]
        rfl
      · rw [if_neg hp, List.lookup, List.lookup]
        cases hb : (k == p.1) with
        | false => exact ih
        | true =>
            exfalso
            rw [beq_iff_eq] at hb
            exact hp hb.symm

/-- Updating the entry under one key leaves other lookups unchanged. -/
lemma lookup_map_entry_ne {β : Type} (l : List (String × β)) (k k' : String)
    (g : β → β) (h : ¬k' = k) :
    (l.map fun p => if p.1 = k then (p.1, g p.2) else p).lookup k'
      = l.lookup k' := by
  induction l with
  | nil => rfl
  | cons p rest ih =>
      rw [List.map_cons]
      by_cases hp : p.1 = k
      · rw [if_pos hp, List.lookup, List.lookup]
        cases hb : (k' == p.1) with
        | false => exact ih
        | true =>
            exfalso
            rw [beq_iff_eq] at hb
            exact h (hb.trans hp)
      · rw [if_neg hp, List.lookup, List.lookup]
        cases hb : (k' == p.1) with
        | false => exact ih
        | true => rfl

/-- `fail_subtask` stamps the new status on the looked-up row. -/
lemma subtaskStatus_fail_subtask (st : CoordState) (now : Nat)
    (sid : String) (status : SubtaskStatus) :
    (st.fail_subtask now sid status).subtaskStatus sid
      = (st.subtasks.lookup sid).map (fun _ => status) := by
  unfold CoordState.fail_subtask CoordState.subtaskStatus
  dsimp only
  rw [lookup_map_entry_self st.subtasks sid
    (fun row => { row with status := status, completed_at := some now })]
  cases st.subtasks.lookup sid <;> rfl

/-- `update_task_status` stamps the new status on the looked-up row. -/
lemma taskStatus_update_task_status (st : CoordState) (now : Nat)
    (task_id : String) (status : TaskStatus) (fr : Option String) :
    (st.update_task_status now task_id status fr).taskStatus task_id
      = (st.tasks.lookup task_id).map (fun _ => status) := by
  unfold CoordState.update_task_status CoordState.taskStatus
  dsimp only
  rw [lookup_map_entry_self st.tasks task_id
    (fun row =>
      match fr with
      | some r =>
          { row with
            status := status
            final_response := some r
            completed_at := some now }
      | none => { row with status := status })]
  cases st.tasks.lookup task_id <;> cases fr <;> rfl

/-- Lookups of other node ids are unaffected by a load modification. -/
lemma get_node_modify_ne (nodes : List ConnectedNode) (id other : String)
    (f : ConnectedNode → ConnectedNode)
    (hf : ∀ n, (f n).node_id = n.node_id) (h : ¬id = other) :
    (NodeRegistry.mk (nodes.map fun n =>
        if n.node_id = other then f n else n)).get_node id
      = (NodeRegistry.mk nodes).get_node id := by
  induction nodes with
  | nil => rfl
  | cons n rest ih =>
      unfold NodeRegistry.get_node at ih ⊢
      rw [List.map_cons, List.find?, List.find?]
      by_cases hn : n.node_id = other
      · rw [if_pos hn]
        have hother : ¬other = id := fun hc => h hc.symm
        have h1 : (decide ((f n).node_id = id)) = false := by
          simp [hf n, hn, hother]
        have h2 : (decide (n.node_id = id)) = false := by
          simp [hn, hother]
        rw [h1, h2]
        exact ih
      · rw [if_neg hn]
        cases hd : (decide (n.node_id = id))
        · exact ih
        · rfl

/-- Incrementing another node's load leaves a load reading unchanged. -/
lemma loadOf_increment_ne (r : NodeRegistry) (id other : String)
    (h : ¬id = other) :
    (r.increment_load other).loadOf id = r.loadOf id := by
  unfold NodeRegistry.loadOf NodeRegistry.increment_load
  rw [get_node_modify_ne r.nodes id other
    (fun n => { n with current_load := n.current_load + 1 })
    (fun _ => rfl) h]

/-- Decrementing another node's load leaves a load reading unchanged. -/
lemma loadOf_decrement_ne (r : NodeRegistry) (id other : String)
    (h : ¬id = other) :
    (r.decrement_load other).loadOf id = r.loadOf id := by
  unfold NodeRegistry.loadOf NodeRegistry.decrement_load
  rw [get_node_modify_ne r.nodes id other
    (fun n => { n with current_load := max 0 (n.current_load - 1) })
    (fun _ => rfl) h]

/-- Recording a failure for one node leaves other breakers unchanged. -/
lemma get_or_create_record_failure_ne (m : CircuitBreakerManager)
    (other id : String) (now : Nat) (h : ¬id = other) :
    (m.record_failure other now).get_or_create id = m.get_or_create id := by
  unfold CircuitBreakerManager.record_failure
    CircuitBreakerManager.get_or_create
  rw [setBreaker_lookup_ne _ _ _ _ h]

/-- Recording a failure for a node applies `record_failure` to its stored
breaker. -/
lemma get_or_create_record_failure_self (m : CircuitBreakerManager)
    (id : String) (now : Nat) :
    (m.record_failure id now).get_or_create id
      = (m.get_or_create id).record_failure now := by
  unfold CircuitBreakerManager.record_failure
  conv =>
    lhs
    unfold CircuitBreakerManager.get_or_create
  rw [setBreaker_lookup_self]
  rfl

/-- An availability check of one node leaves other breakers unchanged. -/
lemma get_or_create_is_available_ne (m : CircuitBreakerManager)
    (other id : String) (now : Nat) (h : ¬id = other) :
    ((m.is_available other now).2).get_or_create id
      = m.get_or_create id := by
  unfold CircuitBreakerManager.is_available
  cases hl : m.breakers.lookup other with
  | none => rfl
  | some b =>
      dsimp only
      unfold CircuitBreakerManager.get_or_create
      rw [setBreaker_lookup_ne _ _ _ _ h]

/-- The availability filter touches only breakers of nodes outside the
exclusion set. -/
lemma filterAvailableGo_excluded_breaker (r : NodeRegistry) (now : Nat)
    (exclude : List String) (id : String) (hid : id ∈ exclude) :
    ∀ (nodes : List ConnectedNode) (m : CircuitBreakerManager),
      ((filterAvailableGo r now exclude nodes m).2).get_or_create id
        = m.get_or_create id := by
  intro nodes
  induction nodes with
  | nil => intro m; rfl
  | cons node rest ih =>
      intro m
      rw [filterAvailableGo]
      dsimp only
      by_cases h1 : node.node_id ∉ exclude
      · rw [if_pos h1]
        have hne : ¬id = node.node_id := fun hc => h1 (hc ▸ hid)
        by_cases h2 : r.is_online node.node_id now = true
        · rw [if_pos h2]
          by_cases h3 : (m.is_available node.node_id now).1 = true
          · rw [if_pos h3]
            dsimp only
            rw [ih _]
            exact get_or_create_is_available_ne m _ id now hne
          · rw [if_neg h3]
            rw [ih _]
            exact get_or_create_is_available_ne m _ id now hne
        · rw [if_neg h2]
          exact ih m
      · rw [if_neg h1]
        exact ih m

/-- The vision-branch filter keeps only nodes from its input list that
are not excluded. -/
lemma visionFilterGo_mem (now : Nat) (excluded : List String) :
    ∀ (l : List ConnectedNode) (m : CircuitBreakerManager)
      (x : ConnectedNode), x ∈ (visionFilterGo now excluded l m).1 →
      x ∈ l ∧ x.node_id ∉ excluded := by
  intro l
  induction l with
  | nil => intro m x hx; simp [visionFilterGo] at hx
  | cons node rest ih =>
      intro m x hx
      rw [visionFilterGo] at hx
      dsimp only at hx
      by_cases h1 : node.node_id ∉ excluded
      · rw [if_pos h1] at hx
        by_cases h3 : ((m.is_available node.node_id now)).1 = true
        · rw [if_pos h3] at hx
          dsimp only at hx
          rcases List.mem_cons.mp hx with hh | ht
          · subst hh
            exact ⟨List.mem_cons_self _ _, h1⟩
          · obtain ⟨ha, hb⟩ := ih _ x ht
            exact ⟨List.mem_cons_of_mem _ ha, hb⟩
        · rw [if_neg h3] at hx
          obtain ⟨ha, hb⟩ := ih _ x hx
          exact ⟨List.mem_cons_of_mem _ ha, hb⟩
      · rw [if_neg h1] at hx
        obtain ⟨ha, hb⟩ := ih _ x hx
        exact ⟨List.mem_cons_of_mem _ ha, hb⟩

/-- The vision-branch filter touches only breakers of non-excluded
nodes. -/
lemma visionFilterGo_excluded_breaker (now : Nat) (excluded : List String)
    (id : String) (hid : id ∈ excluded) :
    ∀ (l : List ConnectedNode) (m : CircuitBreakerManager),
      ((visionFilterGo now excluded l m).2).get_or_create id
        = m.get_or_create id := by
  intro l
  induction l with
  | nil => intro m; rfl
  | cons node rest ih =>
      intro m
      rw [visionFilterGo]
      dsimp only
      by_cases h1 : node.node_id ∉ excluded
      · rw [if_pos h1]
        have hne : ¬id = node.node_id := fun hc => h1 (hc ▸ hid)
        by_cases h3 : ((m.is_available node.node_id now)).1 = true
        · rw [if_pos h3]
          dsimp only
          rw [ih _]
          exact get_or_create_is_available_ne m _ id now hne
        · rw [if_neg h3]
          rw [ih _]
          exact get_or_create_is_available_ne m _ id now hne
      · rw [if_neg h1]
        exact ih m

/-- Entry updates preserve whether any key resolves. -/
lemma lookup_map_entry_isSome {β : Type} (l : List (String × β))
    (k : String) (g : β → β) (k' : String) :
    ((l.map fun p => if p.1 = k then (p.1, g p.2) else p).lookup k').isSome
      = (l.lookup k').isSome := by
  by_cases h : k' = k
  · subst h
    rw [lookup_map_entry_self]
    cases l.lookup k' <;> rfl
  · rw [lookup_map_entry_ne _ _ _ _ h]

/-- A node selected by `select_nodes_v3` is never in the exclusion set. -/
lemma select_v3_mem_not_excluded (r : NodeRegistry) (now : Nat)
    (m : CircuitBreakerManager) (reps : List (String × ℚ))
    (rand : Nat → Nat) (difficulty : TaskDifficulty) (n : Nat)
    (exclude : List String) (x : ConnectedNode)
    (hx : x ∈ (r.select_nodes_v3 now m reps rand difficulty n exclude).1) :
    x.node_id ∉ exclude := by
  unfold NodeRegistry.select_nodes_v3 at hx
  dsimp only at hx
  by_cases he : (filterAvailable r now exclude m).1 = []
  · rw [if_pos he] at hx
    simp at hx
  · rw [if_neg he] at hx
    dsimp only at hx
    exact (filterAvailableGo_spec r now exclude r.nodes m x
      (p2cLoop_subset reps _ difficulty rand _ 0 _ x hx)).2.1

/-- `select_nodes_v3` never touches the breaker of an excluded node. -/
lemma select_v3_excluded_breaker (r : NodeRegistry) (now : Nat)
    (m : CircuitBreakerManager) (reps : List (String × ℚ))
    (rand : Nat → Nat) (difficulty : TaskDifficulty) (n : Nat)
    (exclude : List String) (id : String) (hid : id ∈ exclude) :
    ((r.select_nodes_v3 now m reps rand difficulty n
        exclude).2).get_or_create id = m.get_or_create id := by
  unfold NodeRegistry.select_nodes_v3
  dsimp only
  split_ifs <;>
    exact filterAvailableGo_excluded_breaker r now exclude id hid r.nodes m

/-- The file-less retry loop never touches an excluded node: its breaker
and load are unchanged, every TASK_ASSIGN targets some other node, no
wait event is emitted, and subtask-row existence is preserved. -/
lemma assign_attempts_nofiles_excluded (o : Oracles) (now : Nat)
    (subtask : SubtaskRow) (difficulty : TaskDifficulty) (prev : String) :
    ∀ (remaining attempt : Nat) (excluded : List String) (st : CoordState),
      prev ∈ excluded →
      ((assign_subtask_attempts o now subtask difficulty [] remaining
          attempt excluded st).1.breakers.get_or_create prev
        = st.breakers.get_or_create prev) ∧
      ((assign_subtask_attempts o now subtask difficulty [] remaining
          attempt excluded st).1.registry.loadOf prev
        = st.registry.loadOf prev) ∧
      (∀ nid sid, Event.taskAssign nid sid ∈
          (assign_subtask_attempts o now subtask difficulty [] remaining
            attempt excluded st).2.1 → ¬nid = prev) ∧
      (∀ sid t, Event.waitFor sid t ∉
          (assign_subtask_attempts o now subtask difficulty [] remaining
            attempt excluded st).2.1) ∧
      (∀ sid, ((assign_subtask_attempts o now subtask difficulty []
          remaining attempt excluded st).1.subtasks.lookup sid).isSome
        = (st.subtasks.lookup sid).isSome) := by
  intro remaining
  induction remaining with
  | zero =>
      intro attempt excluded st hprev
      refine ⟨rfl, rfl, ?_, ?_, fun _ => rfl⟩ <;>
        simp [assign_subtask_attempts]
  | succ remaining ih =>
      intro attempt excluded st hprev
      rw [assign_subtask_attempts]
      dsimp only
      rw [if_neg (by simp : ¬(([] : List FileAttachment) ≠ []))]
      cases hsel : (st.registry.select_nodes_v3 now st.breakers
          st.reputations o.rand difficulty 1 excluded).1 with
      | nil =>
          dsimp only
          rw [if_neg (by simp : ¬(([] : List FileAttachment) ≠ []))]
          have hbr : ({ st with breakers :=
              (st.registry.select_nodes_v3 now st.breakers st.reputations
                o.rand difficulty 1 excluded).2 } :
              CoordState).breakers.get_or_create prev
            = st.breakers.get_or_create prev :=
            select_v3_excluded_breaker st.registry now st.breakers
              st.reputations o.rand difficulty 1 excluded prev hprev
          by_cases hatt : attempt < MAX_RETRIES - 1
          · rw [if_pos hatt]
            obtain ⟨ha, hb, hc, hd, he⟩ := ih (attempt + 1) excluded _ hprev
            refine ⟨ha.trans hbr, hb.trans rfl, ?_, ?_, fun sid => he sid⟩
            · intro nid sid hmem
              rcases List.mem_cons.mp hmem with hh | ht
              · exact absurd hh (by simp)
              · exact hc nid sid ht
            · intro sid t hmem
              rcases List.mem_cons.mp hmem with hh | ht
              · exact absurd hh (by simp)
              · exact hd sid t ht
          · rw [if_neg hatt]
            exact ⟨hbr, rfl, by simp, by simp, fun _ => rfl⟩
      | cons node rest =>
          dsimp only
          have hnode : node ∈ (st.registry.select_nodes_v3 now st.breakers
              st.reputations o.rand difficulty 1 excluded).1 := by
            rw [hsel]
            exact List.mem_cons_self _ _
          have hnex : node.node_id ∉ excluded :=
            select_v3_mem_not_excluded st.registry now st.breakers
              st.reputations o.rand difficulty 1 excluded node hnode
          have hnp : ¬node.node_id = prev := fun hc => hnex (hc ▸ hprev)
          have hbr : ({ st with breakers :=
              (st.registry.select_nodes_v3 now st.breakers st.reputations
                o.rand difficulty 1 excluded).2 } :
              CoordState).breakers.get_or_create prev
            = st.breakers.get_or_create prev :=
            select_v3_excluded_breaker st.registry now st.breakers
              st.reputations o.rand difficulty 1 excluded prev hprev
          by_cases hsend : o.sendOk node.node_id attempt = true
          · rw [if_pos hsend]
            refine ⟨hbr, ?_, ?_, by simp, ?_⟩
            · exact loadOf_increment_ne _ prev node.node_id
                (fun hc => hnp hc.symm)
            · intro nid sid hmem
              rcases List.mem_cons.mp hmem with hh | ht
              · cases hh
                exact hnp
              · rcases List.mem_cons.mp ht with hh2 | ht2
                · exact absurd hh2 (by simp)
                · exact absurd ht2 (by simp)
            · intro sid
              unfold CoordState.assign_subtask
              dsimp only
              exact lookup_map_entry_isSome st.subtasks subtask.id
                (fun row => { row with
                  node_id := some node.node_id
                  encrypted_prompt :=
                    some (o.encryptForNode node.public_key subtask.prompt)
                  status := SubtaskStatus.assigned
                  assigned_at := some now }) sid
          · rw [if_neg hsend]
            have hbr2 : ∀ st2 : CoordState,
                st2.breakers.get_or_create prev
                  = st.breakers.get_or_create prev →
                ({ st2 with
                    breakers :=
                      (st2.breakers.record_failure node.node_id now) } :
                  CoordState).breakers.get_or_create prev
                  = st.breakers.get_or_create prev := by
              intro st2 h2
              have := get_or_create_record_failure_ne st2.breakers
                node.node_id prev now (fun hc => hnp hc.symm)
              dsimp only
              rw [this, h2]
            by_cases hatt : attempt < MAX_RETRIES - 1
            · rw [if_pos hatt]
              have hprev2 : prev ∈ excluded ++ [node.node_id] :=
                List.mem_append_left _ hprev
              obtain ⟨ha, hb, hc, hd, he⟩ := ih (attempt + 1)
                (excluded ++ [node.node_id]) _ hprev2
              refine ⟨?_, ?_, ?_, ?_, ?_⟩
              · exact ha.trans (hbr2 _ hbr)
              · exact hb.trans rfl
              · intro nid sid hmem
                rcases List.mem_cons.mp hmem with hh | ht
                · cases hh
                  exact hnp
                · rcases List.mem_cons.mp ht with hh2 | ht2
                  · exact absurd hh2 (by simp)
                  · rcases List.mem_cons.mp ht2 with hh3 | ht3
                    · exact absurd hh3 (by simp)
                    · exact hc nid sid ht3
              · intro sid t hmem
                rcases List.mem_cons.mp hmem with hh | ht
                · exact absurd hh (by simp)
                · rcases List.mem_cons.mp ht with hh2 | ht2
                  · exact absurd hh2 (by simp)
                  · rcases List.mem_cons.mp ht2 with hh3 | ht3
                    · exact absurd hh3 (by simp)
                    · exact hd sid t ht3
              · intro sid
                rw [he sid]
                unfold CoordState.assign_subtask
                dsimp only
                exact lookup_map_entry_isSome st.subtasks subtask.id
                  (fun row => { row with
                    node_id := some node.node_id
                    encrypted_prompt :=
                      some (o.encryptForNode node.public_key subtask.prompt)
                    status := SubtaskStatus.assigned
                    assigned_at := some now }) sid
            · rw [if_neg hatt]
              refine ⟨hbr2 _ hbr, rfl, ?_, by simp, ?_⟩
              · intro nid sid hmem
                rcases List.mem_cons.mp hmem with hh | ht
                · cases hh
                  exact hnp
                · rcases List.mem_cons.mp ht with hh2 | ht2
                  · exact absurd hh2 (by simp)
                  · exact absurd ht2 (by simp)
              · intro sid
                unfold CoordState.assign_subtask
                dsimp only
                exact lookup_map_entry_isSome st.subtasks subtask.id
                  (fun row => { row with
                    node_id := some node.node_id
                    encrypted_prompt :=
                      some (o.encryptForNode node.public_key subtask.prompt)
                    status := SubtaskStatus.assigned
                    assigned_at := some now }) sid

/-- What one reassignment attempt does to the failed worker: its breaker
records exactly one failure, its load is decremented once and then left
alone, every TASK_ASSIGN of the retry goes to some other worker, no wait
happens inside, and subtask-row existence is preserved. -/
lemma try_reassign_spec (st : CoordState) (o : Oracles) (now : Nat)
    (sub_id : String) (difficulty : TaskDifficulty) (prev : String)
    (row : SubtaskRow) (hrow : st.subtasks.lookup sub_id = some row) :
    ((try_reassign_subtask st o now sub_id difficulty
        (some prev)).1.breakers.get_or_create prev
      = (st.breakers.get_or_create prev).record_failure now) ∧
    ((try_reassign_subtask st o now sub_id difficulty
        (some prev)).1.registry.loadOf prev
      = max 0 (st.registry.loadOf prev - 1)) ∧
    (Event.cbFailure prev ∈
      (try_reassign_subtask st o now sub_id difficulty (some prev)).2.1) ∧
    (∀ nid sid, Event.taskAssign nid sid ∈
        (try_reassign_subtask st o now sub_id difficulty (some prev)).2.1 →
      ¬nid = prev) ∧
    (∀ sid t, Event.waitFor sid t ∉
      (try_reassign_subtask st o now sub_id difficulty (some prev)).2.1) ∧
    (∀ sid, ((try_reassign_subtask st o now sub_id difficulty
        (some prev)).1.subtasks.lookup sid).isSome
      = (st.subtasks.lookup sid).isSome) := by
  unfold try_reassign_subtask assign_subtask_with_retry
  rw [hrow]
  dsimp only
  obtain ⟨ha, hb, hc, hd, he⟩ := assign_attempts_nofiles_excluded o now row
    difficulty prev MAX_RETRIES 0 [prev]
    { st with
      breakers := (st.breakers.record_failure prev now)
      registry := st.registry.decrement_load prev }
    (List.mem_singleton_self prev)
  refine ⟨?_, ?_, ?_, ?_, ?_, ?_⟩
  · rw [ha]
    exact get_or_create_record_failure_self st.breakers prev now
  · rw [hb]
    exact loadOf_decrement st.registry prev
  · exact List.mem_append_left _ (List.mem_cons_self _ _)
  · intro nid sid hmem
    rcases List.mem_append.mp hmem with hl | hr
    · rcases List.mem_cons.mp hl with hh | ht
      · exact absurd hh (by simp)
      · rcases List.mem_cons.mp ht with hh2 | ht2
        · exact absurd hh2 (by simp)
        · exact absurd ht2 (by simp)
    · exact hc nid sid hr
  · intro sid t hmem
    rcases List.mem_append.mp hmem with hl | hr
    · rcases List.mem_cons.mp hl with hh | ht
      · exact absurd hh (by simp)
      · rcases List.mem_cons.mp ht with hh2 | ht2
        · exact absurd hh2 (by simp)
        · exact absurd ht2 (by simp)
    · exact hd sid t hr
  · intro sid
    exact he sid

/-- Claim C9: when a subtask's wait times out after its per-difficulty
timeout `T`, the coordinator records exactly one CircuitBreaker failure
for the assigned worker and decrements that worker's load; it attempts
one reassignment with the previous worker excluded (every TASK_ASSIGN of
the retry goes to a different worker), waits again for `max(30, T / 2)`
seconds when the reassignment succeeded, and if the subtask still did not
complete it is marked with status `timeout`. -/
theorem c9_timeout_reassignment (st : CoordState) (o : Oracles) (now : Nat)
    (sub : SubtaskRow) (difficulty : TaskDifficulty)
    (assignments : List (String × String)) (prev : String)
    (row : SubtaskRow) (timeout : Nat)
    (hpend : sub.id ∈ st.pending)
    (hw0 : o.waitOutcome sub.id 0 = false)
    (hassign : assignments.lookup sub.id = some prev)
    (hrow : st.subtasks.lookup sub.id = some row)
    (_htime : timeout = get_timeout_for_difficulty difficulty) :
    ((wait_for_single_subtask st o now sub difficulty timeout
        assignments).1.breakers.get_or_create prev
      = (st.breakers.get_or_create prev).record_failure now) ∧
    (Event.cbFailure prev ∈ (wait_for_single_subtask st o now sub
        difficulty timeout assignments).2.1) ∧
    ((wait_for_single_subtask st o now sub difficulty timeout
        assignments).1.registry.loadOf prev
      = max 0 (st.registry.loadOf prev - 1)) ∧
    (∀ nid sid, Event.taskAssign nid sid ∈
        (wait_for_single_subtask st o now sub difficulty timeout
          assignments).2.1 → ¬nid = prev) ∧
    (∀ sid t, Event.waitFor sid t ∈
        (wait_for_single_subtask st o now sub difficulty timeout
          assignments).2.1 →
      sid = sub.id ∧ (t = timeout ∨ t = max 30 (timeout / 2))) ∧
    ((wait_for_single_subtask st o now sub difficulty timeout
        assignments).2.2 = "reassigned" →
      Event.waitFor sub.id (max 30 (timeout / 2)) ∈
        (wait_for_single_subtask st o now sub difficulty timeout
          assignments).2.1) ∧
    ((wait_for_single_subtask st o now sub difficulty timeout
        assignments).2.2 = "reassigned" ∨
      ((wait_for_single_subtask st o now sub difficulty timeout
          assignments).2.2 = "timeout" ∧
        (wait_for_single_subtask st o now sub difficulty timeout
          assignments).1.subtaskStatus sub.id = some .timeout)) := by
  obtain ⟨ha, hb, hc, hd, he, hf⟩ :=
    try_reassign_spec st o now sub.id difficulty prev row hrow
  have hts : ∀ X : CoordState,
      (X.fail_subtask now sub.id .timeout).subtaskStatus sub.id
        = (X.subtasks.lookup sub.id).map (fun _ => SubtaskStatus.timeout) :=
    fun X => subtaskStatus_fail_subtask X now sub.id .timeout
  have hstat : ((try_reassign_subtask st o now sub.id difficulty
      (some prev)).1.fail_subtask now sub.id
        SubtaskStatus.timeout).subtaskStatus sub.id
      = some SubtaskStatus.timeout := by
    rw [hts]
    have h1 := hf sub.id
    rw [hrow] at h1
    cases hlk : (try_reassign_subtask st o now sub.id difficulty
        (some prev)).1.subtasks.lookup sub.id with
    | none => rw [hlk] at h1; simp at h1
    | some v => rfl
  unfold wait_for_single_subtask
  rw [if_neg (not_not_intro hpend), if_neg (by simp [hw0]), hassign]
  dsimp only
  by_cases hsucc : (try_reassign_subtask st o now sub.id difficulty
      (some prev)).2.2 = true
  · rw [if_pos hsucc]
    by_cases hw1 : o.waitOutcome sub.id 1 = true
    · rw [if_pos hw1]
      refine ⟨ha, ?_, hb, ?_, ?_, ?_, Or.inl rfl⟩
      · exact List.mem_cons_of_mem _ (List.mem_append_left _ hc)
      · intro nid sid hmem
        rcases List.mem_cons.mp hmem with hh | ht
        · exact absurd hh (by simp)
        · rcases List.mem_append.mp ht with hl | hr
          · exact hd nid sid hl
          · rcases List.mem_cons.mp hr with hh2 | ht2
            · exact absurd hh2 (by simp)
            · exact absurd ht2 (by simp)
      · intro sid t hmem
        rcases List.mem_cons.mp hmem with hh | ht
        · injection hh with h1 h2
          exact ⟨h1, Or.inl h2⟩
        · rcases List.mem_append.mp ht with hl | hr
          · exact absurd hl (he sid t)
          · rcases List.mem_cons.mp hr with hh2 | ht2
            · injection hh2 with h1 h2
              exact ⟨h1, Or.inr h2⟩
            · exact absurd ht2 (by simp)
      · intro _
        exact List.mem_cons_of_mem _
          (List.mem_append_right _ (List.mem_cons_self _ _))
    · rw [if_neg hw1]
      refine ⟨ha, ?_, hb, ?_, ?_, ?_, Or.inr ⟨rfl, hstat⟩⟩
      · exact List.mem_cons_of_mem _ (List.mem_append_left _ hc)
      · intro nid sid hmem
        rcases List.mem_cons.mp hmem with hh | ht
        · exact absurd hh (by simp)
        · rcases List.mem_append.mp ht with hl | hr
          · exact hd nid sid hl
          · rcases List.mem_cons.mp hr with hh2 | ht2
            · exact absurd hh2 (by simp)
            · exact absurd ht2 (by simp)
      · intro sid t hmem
        rcases List.mem_cons.mp hmem with hh | ht
        · injection hh with h1 h2
          exact ⟨h1, Or.inl h2⟩
        · rcases List.mem_append.mp ht with hl | hr
          · exact absurd hl (he sid t)
          · rcases List.mem_cons.mp hr with hh2 | ht2
            · injection hh2 with h1 h2
              exact ⟨h1, Or.inr h2⟩
            · exact absurd ht2 (by simp)
      · intro habs
        simp at habs
  · rw [if_neg hsucc]
    refine ⟨ha, ?_, hb, ?_, ?_, ?_, Or.inr ⟨rfl, hstat⟩⟩
    · exact List.mem_cons_of_mem _ hc
    · intro nid sid hmem
      rcases List.mem_cons.mp hmem with hh | ht
      · exact absurd hh (by simp)
      · exact hd nid sid ht
    · intro sid t hmem
      rcases List.mem_cons.mp hmem with hh | ht
      · injection hh with h1 h2
        exact ⟨h1, Or.inl h2⟩
      · exact absurd ht (he sid t)
    · intro habs
      simp at habs

/-- Witness for C9: on a concrete two-node state where subtask s1 was
assigned to n1 and every wait returns false, the wait records one breaker
failure for n1 and ends in the timeout outcome with s1 marked timeout. -/
theorem c9_timeout_reassignment_witness :
    ((wait_for_single_subtask c9State okOracles 0
        { id := "s1", task_id := "t1", prompt := "p1" }
        TaskDifficulty.simple 60 [("s1", "n1")]).1.breakers.get_or_create
          "n1"
      = (c9State.breakers.get_or_create "n1").record_failure 0) ∧
    (Event.cbFailure "n1" ∈ (wait_for_single_subtask c9State okOracles 0
        { id := "s1", task_id := "t1", prompt := "p1" }
        TaskDifficulty.simple 60 [("s1", "n1")]).2.1) ∧
    ((wait_for_single_subtask c9State okOracles 0
        { id := "s1", task_id := "t1", prompt := "p1" }
        TaskDifficulty.simple 60 [("s1", "n1")]).2.2 = "reassigned" ∨
      ((wait_for_single_subtask c9State okOracles 0
          { id := "s1", task_id := "t1", prompt := "p1" }
          TaskDifficulty.simple 60 [("s1", "n1")]).2.2 = "timeout" ∧
        (wait_for_single_subtask c9State okOracles 0
          { id := "s1", task_id := "t1", prompt := "p1" }
          TaskDifficulty.simple 60
          [("s1", "n1")]).1.subtaskStatus "s1" = some .timeout)) := by
  obtain ⟨h1, h2, _, _, _, _, h7⟩ :=
    c9_timeout_reassignment c9State okOracles 0
      { id := "s1", task_id := "t1", prompt := "p1" }
      TaskDifficulty.simple [("s1", "n1")] "n1"
      { id := "s1", task_id := "t1", prompt := "p1" } 60
      (by decide) rfl rfl rfl rfl
  exact ⟨h1, h2, h7⟩

/-- With files attached, every TASK_ASSIGN of the retry loop targets a
vision-capable node of the registry (which the loop never changes before
emitting the event). -/
lemma assign_attempts_vision_targets (o : Oracles) (now : Nat)
    (subtask : SubtaskRow) (difficulty : TaskDifficulty)
    (files : List FileAttachment) (hf : files ≠ []) :
    ∀ (remaining attempt : Nat) (excluded : List String) (st : CoordState)
      (nid sid : String),
      Event.taskAssign nid sid ∈
        (assign_subtask_attempts o now subtask difficulty files remaining
          attempt excluded st).2.1 →
      ∃ node, node ∈ st.registry.get_vision_capable_nodes ∧
        node.node_id = nid := by
  intro remaining
  induction remaining with
  | zero =>
      intro attempt excluded st nid sid hmem
      simp [assign_subtask_attempts] at hmem
  | succ remaining ih =>
      intro attempt excluded st nid sid hmem
      rw [assign_subtask_attempts] at hmem
      dsimp only at hmem
      rw [if_pos hf] at hmem
      cases hv : (visionFilterGo now excluded
          st.registry.get_vision_capable_nodes st.breakers).1 with
      | nil =>
          rw [hv] at hmem
          dsimp only [List.take] at hmem
          rw [if_pos hf] at hmem
          simp at hmem
      | cons x xs =>
          rw [hv] at hmem
          dsimp only [List.take] at hmem
          have hx : x ∈ (visionFilterGo now excluded
              st.registry.get_vision_capable_nodes st.breakers).1 := by
            rw [hv]
            exact List.mem_cons_self _ _
          have hxm := (visionFilterGo_mem now excluded _ st.breakers x hx).1
          by_cases hsend : o.sendOk x.node_id attempt = true
          · rw [if_pos hsend] at hmem
            rcases List.mem_cons.mp hmem with hh | ht
            · cases hh
              exact ⟨x, hxm, rfl⟩
            · rcases List.mem_cons.mp ht with hh2 | ht2
              · exact absurd hh2 (by simp)
              · exact absurd ht2 (by simp)
          · rw [if_neg hsend] at hmem
            by_cases hatt : attempt < MAX_RETRIES - 1
            · rw [if_pos hatt] at hmem
              rcases List.mem_cons.mp hmem with hh | ht
              · cases hh
                exact ⟨x, hxm, rfl⟩
              · rcases List.mem_cons.mp ht with hh2 | ht2
                · exact absurd hh2 (by simp)
                · rcases List.mem_cons.mp ht2 with hh3 | ht3
                  · exact absurd hh3 (by simp)
                  · obtain ⟨node, hn1, hn2⟩ :=
                      ih (attempt + 1) (excluded ++ [x.node_id]) _ nid sid
                        ht3
                    exact ⟨node, hn1, hn2⟩
            · rw [if_neg hatt] at hmem
              rcases List.mem_cons.mp hmem with hh | ht
              · cases hh
                exact ⟨x, hxm, rfl⟩
              · rcases List.mem_cons.mp ht with hh2 | ht2
                · exact absurd hh2 (by simp)
                · exact absurd ht2 (by simp)

/-- With files attached but no vision-capable node connected, the retry
loop gives up immediately: state unchanged, no events, no assignment. -/
lemma assign_attempts_vision_none (o : Oracles) (now : Nat)
    (subtask : SubtaskRow) (difficulty : TaskDifficulty)
    (files : List FileAttachment) (hf : files ≠ [])
    (remaining attempt : Nat) (excluded : List String) (st : CoordState)
    (hvis : st.registry.get_vision_capable_nodes = []) :
    assign_subtask_attempts o now subtask difficulty files remaining
      attempt excluded st = (st, [], false, none) := by
  cases remaining with
  | zero => rfl
  | succ remaining =>
      rw [assign_subtask_attempts]
      dsimp only
      rw [if_pos hf, hvis]
      dsimp only [visionFilterGo, List.take]
      rw [if_pos hf]

/-- With files attached but no vision-capable node connected, assigning a
batch of subtasks produces no assignment and no events and merely fails
every subtask row. -/
lemma assign_subtasks_vision_none (o : Oracles) (now : Nat)
    (difficulty : TaskDifficulty) (files : List FileAttachment)
    (hf : files ≠ []) :
    ∀ (subs : List SubtaskRow) (st : CoordState),
      st.registry.get_vision_capable_nodes = [] →
      assign_subtasks o now difficulty files subs st
        = (subs.foldl
            (fun s sub => s.fail_subtask now sub.id SubtaskStatus.failed)
            st, [], []) := by
  intro subs
  induction subs with
  | nil =>
      intro st _
      rfl
  | cons sub rest ih =>
      intro st hvis
      rw [assign_subtasks]
      dsimp only
      unfold assign_subtask_with_retry
      rw [assign_attempts_vision_none o now sub difficulty files hf
        MAX_RETRIES 0 [] st hvis]
      dsimp only
      rw [ih]
      · rfl
      · exact hvis

/-- Failing a pile of subtask rows does not touch the task table or the
streaming manager. -/
lemma foldl_fail_projections (now : Nat) (status : SubtaskStatus) :
    ∀ (subs : List SubtaskRow) (st : CoordState),
      ((subs.foldl (fun s sub => s.fail_subtask now sub.id status)
          st).tasks = st.tasks) ∧
      ((subs.foldl (fun s sub => s.fail_subtask now sub.id status)
          st).streams = st.streams) := by
  intro subs
  induction subs with
  | nil => exact fun st => ⟨rfl, rfl⟩
  | cons sub rest ih =>
      intro st
      exact ⟨((ih _).1).trans rfl, ((ih _).2).trans rfl⟩

/-- A task-status update never touches the streaming manager. -/
lemma streams_update_task_status (st : CoordState) (now : Nat)
    (task_id : String) (status : TaskStatus) (fr : Option String) :
    (st.update_task_status now task_id status fr).streams = st.streams :=
  rfl

/-- Replacing the streaming manager does not affect task statuses. -/
lemma taskStatus_set_streams (x : CoordState) (s : StreamingManager)
    (tid : String) :
    ({ x with streams := s } : CoordState).taskStatus tid
      = x.taskStatus tid :=
  rfl

/-- Claim C2 counterexample: a task created with an attached image while
only a non-vision node is connected does not end Failed and does get a
TASK_ASSIGN: `create_task` silently drops the image (prepending an
explanatory note to the prompt) and the subtask is assigned to the
non-vision node, after which the task is marked Completed. -/
theorem c2_counterexample_image_dropped_without_vision_nodes :
    c2NoVisState.registry.get_vision_capable_nodes = [] ∧
    c2Image.is_image = true ∧
    (testNode "n1").supports_vision = false ∧
    Event.taskAssign "n1" "s0" ∈ (create_task c2NoVisState okOracles 0
      (fun _ p => p) (fun _ => .simple) (fun p => [p]) (fun p => [p])
      (fun _ _ d => d) (fun _ _ => "") (fun _ _ => "") (fun _ _ => "")
      (fun i => "s" ++ toString i) "t1" "u" "hola" [c2Image] .subtasks
      none false).2 ∧
    (create_task c2NoVisState okOracles 0
      (fun _ p => p) (fun _ => .simple) (fun p => [p]) (fun p => [p])
      (fun _ _ d => d) (fun _ _ => "") (fun _ _ => "") (fun _ _ => "")
      (fun i => "s" ++ toString i) "t1" "u" "hola" [c2Image] .subtasks
      none false).1.taskStatus "t1" = some TaskStatus.completed := by
  refine ⟨rfl, rfl, rfl, ?_, ?_⟩ <;> decide

/-- Claim C2 (amended): what the code guarantees about image routing.
(a) When image files actually reach the assignment step, every
TASK_ASSIGN of `_assign_subtask_with_retry` targets a vision-capable
node. (b) When files reach `_process_task` while no vision-capable node
is connected, the task is marked Failed, no event at all (in particular
no TASK_ASSIGN) is emitted, and the stream session — when one exists —
receives the human-readable no-vision error sentinel. (c) However,
`create_task` forwards the images to processing only when a
vision-capable node is connected at creation time: otherwise it drops
them and prepends an explanatory note to the prompt, so processing
continues on non-vision workers — the divergence the counterexample
exhibits. -/
theorem c2_vision_routing_amended (st : CoordState) (o : Oracles)
    (now : Nat) (files : List FileAttachment) (hf : files ≠ []) :
    (∀ (sub : SubtaskRow) (difficulty : TaskDifficulty)
        (excluded : List String) (nid sid : String),
      Event.taskAssign nid sid ∈
        (assign_subtask_with_retry st o now sub difficulty excluded
          files).2.1 →
      ∃ node, node ∈ st.registry.get_vision_capable_nodes ∧
        node.node_id = nid) ∧
    (∀ (dS dC : String → List String)
        (cl : String → Nat → TaskDifficulty → TaskDifficulty)
        (aS aC aX : List SubtaskRow → String → String)
        (gen : Nat → String) (task_id prompt : String) (mode : TaskMode)
        (difficulty : TaskDifficulty),
      st.registry.get_vision_capable_nodes = [] →
      (st.tasks.lookup task_id).isSome = true →
      (process_task st o now dS dC cl aS aC aX gen task_id prompt mode
          difficulty files).2 = [] ∧
      (process_task st o now dS dC cl aS aC aX gen task_id prompt mode
          difficulty files).1.taskStatus task_id
        = some TaskStatus.failed ∧
      (∀ s, st.streams.tasks.lookup task_id = some s →
        (process_task st o now dS dC cl aS aC aX gen task_id prompt mode
            difficulty files).1.streams.tasks.lookup task_id
          = some { s with
              queue := s.queue ++
                [{ type := "error", content := some visionFailMessage }]
              is_complete := true
              final_response := none
              error := some visionFailMessage })) ∧
    (∀ (processPdfs : List FileAttachment → String → String)
        (prompt : String) (difficulty0 : Option TaskDifficulty),
      st.registry.get_vision_capable_nodes = [] →
      files.filter FileAttachment.is_image ≠ [] →
      create_task_files st.registry processPdfs prompt files difficulty0
        = (noVisionNote (imageNames (files.filter FileAttachment.is_image))
            ++ (if files.filter FileAttachment.is_pdf ≠ [] then
                  processPdfs (files.filter FileAttachment.is_pdf) prompt
                else prompt),
           [], some TaskDifficulty.advanced)) := by
  refine ⟨?_, ?_, ?_⟩
  · intro sub difficulty excluded nid sid hmem
    exact assign_attempts_vision_targets o now sub difficulty files hf
      MAX_RETRIES 0 excluded st nid sid hmem
  · intro dS dC cl aS aC aX gen task_id prompt mode difficulty hvis hsome
    unfold process_task
    dsimp only
    rw [assign_subtasks_vision_none o now _ files hf]
    swap
    · exact hvis
    split_ifs with hcond
    · dsimp only
      refine ⟨rfl, ?_, ?_⟩
      · rw [taskStatus_set_streams, taskStatus_update_task_status,
          (foldl_fail_projections now SubtaskStatus.failed _ _).1]
        dsimp only
        unfold CoordState.update_task_status
        dsimp only
        rw [lookup_map_entry_self st.tasks task_id
          (fun row => { row with status := TaskStatus.processing })]
        obtain ⟨row, hrow⟩ := Option.isSome_iff_exists.mp hsome
        rw [hrow]
        rfl
      · intro s hs
        rw [streams_update_task_status,
          (foldl_fail_projections now SubtaskStatus.failed _ _).2]
        dsimp only
        rw [streams_update_task_status]
        unfold StreamingManager.complete_stream
        rw [hs]
        dsimp only
        rw [if_pos (by decide :
          strTruthy (some visionFailMessage) = true)]
        unfold StreamingManager.setTask
        dsimp only
        rw [lookup_replace_self_gen st.streams.tasks task_id _
          (by rw [hs]; rfl)]
    · exact absurd ⟨rfl, hf⟩ hcond
  · intro processPdfs prompt difficulty0 hvis himg
    unfold create_task_files
    rw [if_neg hf]
    dsimp only
    rw [if_pos himg,
      if_neg (show ¬st.registry.get_vision_capable_nodes ≠ [] from
        fun hc => hc hvis)]

/-- Witness for the amended C2: with an image that did reach
`_process_task` and no vision node connected, the concrete run emits no
event and marks the task Failed; and `create_task_files` on the same
registry drops the image, prepending the note. -/
theorem c2_vision_routing_amended_witness :
    (process_task c2VisState okOracles 0 (fun p => [p]) (fun p => [p])
      (fun _ _ d => d) (fun _ _ => "") (fun _ _ => "") (fun _ _ => "")
      (fun i => "s" ++ toString i) "t1" "p" TaskMode.subtasks
      TaskDifficulty.advanced [c2Image]).2 = [] ∧
    (process_task c2VisState okOracles 0 (fun p => [p]) (fun p => [p])
      (fun _ _ d => d) (fun _ _ => "") (fun _ _ => "") (fun _ _ => "")
      (fun i => "s" ++ toString i) "t1" "p" TaskMode.subtasks
      TaskDifficulty.advanced [c2Image]).1.taskStatus "t1"
      = some TaskStatus.failed ∧
    create_task_files c2VisState.registry (fun _ p => p) "p" [c2Image]
      none
      = (noVisionNote (imageNames [c2Image]) ++ "p", [],
         some TaskDifficulty.advanced) := by
  obtain ⟨-, hb, hc⟩ := c2_vision_routing_amended c2VisState okOracles 0
    [c2Image] (by decide)
  obtain ⟨h1, h2, -⟩ := hb (fun p => [p]) (fun p => [p]) (fun _ _ d => d)
    (fun _ _ => "") (fun _ _ => "") (fun _ _ => "")
    (fun i => "s" ++ toString i) "t1" "p" TaskMode.subtasks
    TaskDifficulty.advanced rfl rfl
  refine ⟨h1, h2, ?_⟩
  rw [hc (fun _ p => p) "p" none rfl (by decide)]
  decide

/-- Claim C1: the finalization of `_process_task` marks the task
`completed` regardless of the subtasks' outcomes. On the mixed input (one
subtask completed, one timed out) the persisted status is `completed`,
not the `partial` the specification requires — though the aggregator did
run over the one completed subtask; and on the none-completed input the
status is again `completed` (the specification requires `failed`), with
the aggregator's "Task failed." text stored as the final response, in
contradiction with the stored status. -/
theorem c1_final_status_ignores_subtask_outcomes :
    ((process_task_finalize mixedOutcomeState 100 "t1" "p" .subtasks
        countingAggregator countingAggregator
        countingAggregator).taskStatus "t1" = some .completed) ∧
    (((process_task_finalize mixedOutcomeState 100 "t1" "p" .subtasks
        countingAggregator countingAggregator
        countingAggregator).tasks.lookup "t1").map TaskRow.final_response
      = some (some "1")) ∧
    (TaskStatus.completed ≠ TaskStatus.partialSt) ∧
    ((process_task_finalize noneOutcomeState 100 "t2" "p" .subtasks
        countingAggregator countingAggregator
        countingAggregator).taskStatus "t2" = some .completed) ∧
    (((process_task_finalize noneOutcomeState 100 "t2" "p" .subtasks
        countingAggregator countingAggregator
        countingAggregator).tasks.lookup "t2").map TaskRow.final_response
      = some (some "Task failed. 1 subtasks failed, 1 timed out.")) ∧
    (TaskStatus.completed ≠ TaskStatus.failed) := by
  refine ⟨?_, ?_, by decide, ?_, ?_, by decide⟩ <;> rfl

/-- Claim C10 counterexample: with one freshly registered node at load 0,
the interleaving `[dec, dec, inc]` has more decrements (2) than increments
(1), yet its final load is 1, not 0 — early decrements are absorbed by the
clamp and do not cancel later increments. -/
theorem c10_counterexample_dec_before_inc :
    (applyLoadOps ⟨[testNode "n1"]⟩ "n1"
        [LoadOp.dec, LoadOp.dec, LoadOp.inc]).loadOf "n1" = 1 ∧
    ([LoadOp.dec, LoadOp.dec, LoadOp.inc].count LoadOp.dec >
      [LoadOp.dec, LoadOp.dec, LoadOp.inc].count LoadOp.inc) ∧
    (1 : ℤ) ≠ 0 := by
  refine ⟨?_, by decide, by decide⟩
  rfl

/-- Claim C10 (amended): a ConnectedNode built by registration starts with
`current_load = 0`; the load never becomes negative under any interleaving
of `increment_load` and `decrement_load`; and `n` increments followed by
`m ≥ n` decrements leave the load at exactly 0 (the unrestricted "more
decrements than increments" version is refuted by the counterexample). -/
theorem c10_load_accounting_amended :
    (∀ (node_id public_key model_name : String) (max_context : Nat)
        (vram_gb : ℚ) (gpu_name : String) (model_params : ℚ)
        (model_quantization : String) (tokens_per_second : ℚ)
        (node_tier : NodeTier) (supports_vision : Bool) (now : Nat),
        (registerConnectedNode node_id public_key model_name max_context
          vram_gb gpu_name model_params model_quantization
          tokens_per_second node_tier supports_vision now).current_load
          = 0) ∧
    (∀ (r : NodeRegistry) (id : String) (ops : List LoadOp),
        0 ≤ r.loadOf id → 0 ≤ (applyLoadOps r id ops).loadOf id) ∧
    (∀ (r : NodeRegistry) (id : String) (n m : Nat),
        r.loadOf id = 0 → n ≤ m →
        (applyLoadOps r id
          (List.replicate n .inc ++ List.replicate m .dec)).loadOf id
          = 0) := by
  refine ⟨fun _ _ _ _ _ _ _ _ _ _ _ _ => rfl,
    fun r id ops h => applyLoadOps_nonneg id ops r h, ?_⟩
  intro r id n m h0 hnm
  rw [applyLoadOps_append]
  by_cases hp : (r.get_node id).isSome
  · obtain ⟨h1, _⟩ := applyLoadOps_replicate_inc id n r hp
    rw [applyLoadOps_replicate_dec id m _
        (by rw [h1, h0]; positivity)]
    rw [h1, h0, zero_add]
    rw [max_eq_left (by omega)]
  · have habs : r.get_node id = none := by
      cases hg : r.get_node id
      · rfl
      · rw [hg] at hp; simp at hp
    have hz : ∀ (ops : List LoadOp) (s : NodeRegistry),
        s.get_node id = none →
        (applyLoadOps s id ops).get_node id = none := by
      intro ops
      induction ops with
      | nil => intro s hs; exact hs
      | cons op rest ih =>
          intro s hs
          cases op with
          | inc =>
              apply ih
              have := isSome_increment s id
              rw [hs] at this
              cases hg : (s.increment_load id).get_node id
              · rfl
              · rw [hg] at this; simp at this
          | dec =>
              apply ih
              have := isSome_decrement s id
              rw [hs] at this
              cases hg : (s.decrement_load id).get_node id
              · rfl
              · rw [hg] at this; simp at this
    have := hz (List.replicate n LoadOp.inc ++ List.replicate m LoadOp.dec)
      r habs
    rw [applyLoadOps_append] at this
    unfold NodeRegistry.loadOf
    rw [this]
    rfl

/-- Witness for C10 (amended) at a concrete registry: two increments then
three decrements on a fresh node end at load 0. -/
theorem c10_load_accounting_amended_witness :
    (applyLoadOps ⟨[testNode "n1"]⟩ "n1"
      (List.replicate 2 .inc ++ List.replicate 3 .dec)).loadOf "n1" = 0 :=
  c10_load_accounting_amended.2.2 ⟨[testNode "n1"]⟩ "n1" 2 3 rfl
    (by decide)

end Iris
